import Mathlib

/-! Low-disk-space monitor of the housekeeping plugin.

A shallow embedding of `src/plugins/housekeeping/usd-disk-space.cpp`.

* C `double` values (free-space ratios, the two percentage thresholds and the
  result of `difftime`) are values of the type `Double` below, IEEE 754 binary64
  with round-to-nearest-even, infinities and NaN.
* `unsigned long` fields of `struct statvfs` are natural numbers; a cast to
  `gint64` and 64-bit products are reduced modulo `2 ^ 64` explicitly.
* The members of class `DIskSpace` form one record which every function takes
  and returns.  The same record carries a log of the calls that leave the
  process (notification attempts, dialogs executed, analyzer launches).
* `time (NULL)` and `LdsmDialog::exec ()` are answered by an `Oracle`; the mount
  table and `statvfs` by a `MountSource`.
* The code runs in one thread.  The event loop nested in `LdsmDialog::exec ()` is
  not part of the embedding: a call that arrives while a dialog is displayed is a
  call in a state whose `dialog` member is non-null.
-/

namespace UsdDiskSpace

/-! ## Floating point -/

/-- A C `double`: an IEEE 754 binary64 value.  A finite value is given by the rational number
it stands for; the operations below only produce finite values that binary64 can represent.
The sign of a zero is not kept: no comparison depends on it, and the only divisor of the
program that can be zero, `(double) buf.f_blocks`, is a positive zero. -/
inductive Double where
  | finite (q : ℚ)
  | inf (negative : Bool)
  | nan
deriving DecidableEq

/-- The integer part of the binary logarithm of `n` for `n ≥ 1`, computed with `fuel` halving
steps (`fuel = n` is always enough). -/
def Double.ilog2 : Nat → Nat → Nat
  | 0, _ => 0
  | fuel + 1, n => if n < 2 then 0 else Double.ilog2 fuel (n / 2) + 1

/-- The exponent `e` with `2 ^ e ≤ n / d < 2 ^ (e + 1)`, for positive `n` and `d`. -/
def Double.binade (n d : Nat) : Int :=
  let e : Int := (Double.ilog2 n n : Int) - (Double.ilog2 d d : Int)
  if (if 0 ≤ e then d * 2 ^ e.toNat ≤ n else d ≤ n * 2 ^ (-e).toNat) then e else e - 1

/-- The integer nearest to `n / d`, a tie going to the even one. -/
def Double.roundHalfEven (n d : Nat) : Nat :=
  let fl := n / d
  let r := n % d
  if 2 * r < d then fl else if d < 2 * r then fl + 1 else if fl % 2 = 0 then fl else fl + 1

/-- The binary64 magnitude nearest to `n / d` for positive `n` and `d`, ties going to the even
significand: a multiple of `2 ^ k` with at most 53 significant bits, where `k` is the
exponent of the last place of the binade of `n / d` and at least `-1074` (subnormal
numbers). -/
def Double.roundMag (n d : Nat) : ℚ :=
  let e := Double.binade n d
  let k : Int := max e (-1022) - 52
  if 0 ≤ k then ((Double.roundHalfEven n (d * 2 ^ k.toNat) * 2 ^ k.toNat : Nat) : ℚ)
  else (Double.roundHalfEven (n * 2 ^ (-k).toNat) d : ℚ) / ((2 ^ (-k).toNat : Nat) : ℚ)

/-- Rounding of a rational number to binary64, to nearest with ties to even; a magnitude of
`2 ^ 1024` or more is an infinity. -/
def Double.round (q : ℚ) : Double :=
  if q = 0 then Double.finite 0
  else
    let v := Double.roundMag q.num.natAbs q.den
    if ((2 ^ 1024 : Nat) : ℚ) ≤ v then Double.inf (decide (q < 0))
    else if q < 0 then Double.finite (-v) else Double.finite v

/-- Conversion of an unsigned integer to `double`. -/
def Double.ofNat (n : Nat) : Double := Double.round (n : ℚ)

/-- Conversion of a signed integer to `double`. -/
def Double.ofInt (i : Int) : Double := Double.round (i : ℚ)

/-- The value of a decimal floating-point literal such as `0.05`: the nearest `double`. -/
def Double.ofRat (q : ℚ) : Double := Double.round q

/-- Division of two `double`s. -/
def Double.div : Double → Double → Double
  | Double.nan, _ => Double.nan
  | _, Double.nan => Double.nan
  | Double.finite a, Double.finite b =>
    if b = 0 then (if a = 0 then Double.nan else Double.inf (decide (a < 0)))
    else Double.round (a / b)
  | Double.finite _, Double.inf _ => Double.finite 0
  | Double.inf s, Double.finite b => Double.inf (xor s (decide (b < 0)))
  | Double.inf _, Double.inf _ => Double.nan

/-- Subtraction of two `double`s. -/
def Double.sub : Double → Double → Double
  | Double.nan, _ => Double.nan
  | _, Double.nan => Double.nan
  | Double.finite a, Double.finite b => Double.round (a - b)
  | Double.finite _, Double.inf s => Double.inf (!s)
  | Double.inf s, Double.finite _ => Double.inf s
  | Double.inf s, Double.inf t => if s = t then Double.nan else Double.inf s

/-- The comparison `a < b` of two `double`s; false when either is NaN. -/
def Double.lt : Double → Double → Bool
  | Double.nan, _ => false
  | _, Double.nan => false
  | Double.finite a, Double.finite b => decide (a < b)
  | Double.finite _, Double.inf s => !s
  | Double.inf s, Double.finite _ => s
  | Double.inf s, Double.inf t => s && !t

/-- The comparison `a <= b` of two `double`s; false when either is NaN. -/
def Double.le : Double → Double → Bool
  | Double.nan, _ => false
  | _, Double.nan => false
  | Double.finite a, Double.finite b => decide (a ≤ b)
  | Double.finite _, Double.inf s => !s
  | Double.inf s, Double.finite _ => s
  | Double.inf s, Double.inf t => s || !t

/-- The comparison `a > b` of two `double`s; false when either is NaN. -/
def Double.gt (a b : Double) : Bool := Double.lt b a

/-- The comparison `a >= b` of two `double`s; false when either is NaN. -/
def Double.ge (a b : Double) : Bool := Double.le b a

/-! ## Data model -/

/-- The part of a GLib `GUnixMountEntry` that the monitor reads. -/
structure GUnixMountEntry where
  /-- Value of `g_unix_mount_get_mount_path`. -/
  mount_path : String
  /-- Value of `g_unix_mount_get_device_path`. -/
  device_path : String
  /-- Value of `g_unix_mount_get_fs_type`. -/
  filesystem_type : String
  /-- Value of `g_unix_mount_is_readonly`. -/
  is_read_only : Bool
deriving DecidableEq

/-- The fields of `struct statvfs` that the monitor reads (all `unsigned long`). -/
structure Statvfs where
  f_frsize : Nat
  f_blocks : Nat
  f_bavail : Nat
deriving DecidableEq

/-- Struct `LdsmMountInfo`: a mount entry, its space statistics and the time of the last
notification.  The struct is declared in `usd-disk-space.h`; its three fields are the ones
the source file reads and writes (`mount`, `buf`, `notify_time`). -/
structure LdsmMountInfo where
  mount : GUnixMountEntry
  buf : Statvfs
  notify_time : Int
deriving DecidableEq

/-- The values `LdsmDialog::exec ()` can return: the five `case` labels of the `switch` in
`ldsm_notify_for_mount`, whose `default` branch is `g_assert_not_reached ()`. -/
inductive Response where
  | GTK_RESPONSE_CANCEL
  | LDSM_DIALOG_RESPONSE_ANALYZE
  | LDSM_DIALOG_RESPONSE_EMPTY_TRASH
  | GTK_RESPONSE_NONE
  | GTK_RESPONSE_DELETE_EVENT
deriving DecidableEq

/-- One execution of an `LdsmDialog`: the constructor arguments computed from the mount
and the two volume flags, and the response `exec ()` returned. -/
structure LdsmDialog where
  other_usable_volumes : Bool
  multiple_volumes : Bool
  free_space : Int
  path : String
  response : Response
deriving DecidableEq

/-- The members of class `DIskSpace` that the monitor uses, followed by the log of the
outside calls made so far.  The class is declared in `usd-disk-space.h`;
`free_size_gb_no_notify` and `min_notify_period` receive the result of `QVariant::toInt ()`
and are integers here, and `dialog` is the pointer that the constructor sets to `NULL`. -/
structure DIskSpace where
  /-- The `GHashTable` from mount path to the `LdsmMountInfo` stored at the last update -/
  ldsm_notified_hash : List (String × LdsmMountInfo)
  free_percent_notify : Double
  free_percent_notify_again : Double
  free_size_gb_no_notify : Int
  min_notify_period : Int
  ignore_paths : List String
  /-- Whether the `dialog` pointer member is non-null -/
  dialog : Bool
  /-- Log: number of `time (NULL)` calls made -/
  time_calls : Nat
  /-- Log: the arguments of every call of `ldsm_notify_for_mount` -/
  attempts : List LdsmMountInfo
  /-- Log: every dialog that was constructed and executed -/
  shown : List LdsmDialog
  /-- Log: every path handed to `ldsm_analyze_path` -/
  analyzed : List String

/-- Answers of the outside world: the value of the `k`-th call of `time (NULL)` and the
response of the `k`-th dialog executed. -/
structure Oracle where
  time : Nat → Int
  exec : Nat → Response

/-- The mount table during one check: the mount paths of the static mount points
(`g_unix_mount_points_get`), the live mount at a path (`g_unix_mount_at`) and the space
statistics of a path (`statvfs`, `none` when the call fails).  The last two are functions of
the path: the mounts and their statistics do not change while one check runs. -/
structure MountSource where
  g_unix_mount_points_get : List String
  g_unix_mount_at : String → Option GUnixMountEntry
  statvfs : String → Option Statvfs

/-! ## Machine integers -/

/-- Conversion to `gint64` (two's complement, 64 bits). -/
def toGint64 (n : Int) : Int := (n + 2 ^ 63) % 2 ^ 64 - 2 ^ 63

/-- Conversion to a 32-bit C `int` (two's complement). -/
def toInt32 (n : Int) : Int := (n + 2 ^ 31) % 2 ^ 32 - 2 ^ 31

/-- Product of two `gint64` values. -/
def gint64_mul (a b : Int) : Int := toGint64 (a * b)

/-! ## The notification table -/

/-- Embedding of `g_hash_table_lookup`: the value stored under `key`, if any. -/
def g_hash_table_lookup : List (String × LdsmMountInfo) → String → Option LdsmMountInfo
  | [], _ => none
  | (k, v) :: rest, key => if k = key then some v else g_hash_table_lookup rest key

/-- Embedding of `g_hash_table_remove`: the entry of `key`, if any, is dropped. -/
def g_hash_table_remove : List (String × LdsmMountInfo) → String → List (String × LdsmMountInfo)
  | [], _ => []
  | (k, v) :: rest, key =>
    if k = key then g_hash_table_remove rest key else (k, v) :: g_hash_table_remove rest key

/-- Embedding of `g_hash_table_replace`: the entry of `key`, if any, is dropped and the new one stored. -/
def g_hash_table_replace (h : List (String × LdsmMountInfo)) (key : String)
    (value : LdsmMountInfo) : List (String × LdsmMountInfo) :=
  (key, value) :: g_hash_table_remove h key

/-! ## Ignore rules -/

/-- Embedding of `ldsm_mount_is_user_ignore`: `g_slist_find_custom` with `g_strcmp0` over `ignore_paths`. -/
def ldsm_mount_is_user_ignore (d : DIskSpace) (path : String) : Bool :=
  d.ignore_paths.any (fun a => a = path)

/-- Embedding of `is_in`: whether `value` equals (`strcmp`) an element of the array `set`. -/
def is_in (value : String) : List String → Bool
  | [] => false
  | s :: rest => if s = value then true else is_in value rest

/-- The array `ignore_fs` of `ldsm_mount_should_ignore`. -/
def ignore_fs : List String :=
  ["adfs", "afs", "auto", "autofs", "autofs4", "cifs", "cxfs", "devfs", "devpts", "ecryptfs",
   "fdescfs", "gfs", "gfs2", "kernfs", "linprocfs", "linsysfs", "lustre", "lustre_lite",
   "ncpfs", "nfs", "nfs4", "nfsd", "ocfs2", "proc", "procfs", "ptyfs", "rpc_pipefs",
   "selinuxfs", "smbfs", "sysfs", "tmpfs", "usbfs", "zfs"]

/-- The array `ignore_devices` of `ldsm_mount_should_ignore`. -/
def ignore_devices : List String :=
  ["none", "sunrpc", "devpts", "nfsd", "/dev/loop", "/dev/vn"]

/-- Embedding of `DIskSpace::ldsm_mount_should_ignore`. -/
def ldsm_mount_should_ignore (d : DIskSpace) (mount : GUnixMountEntry) : Bool :=
  let path := mount.mount_path
  if ldsm_mount_is_user_ignore d path then true
  else
    let fs := mount.filesystem_type
    let device := mount.device_path
    if is_in fs ignore_fs then true
    else if is_in device ignore_devices then true
    else false

/-! ## Space evaluation -/

/-- The quotient `(double) buf.f_bavail / (double) buf.f_blocks`. -/
def free_space_ratio (buf : Statvfs) : Double :=
  Double.div (Double.ofNat buf.f_bavail) (Double.ofNat buf.f_blocks)

/-- The product `(gint64) buf.f_frsize * (gint64) buf.f_bavail`. -/
def free_space_bytes (buf : Statvfs) : Int :=
  gint64_mul (toGint64 buf.f_frsize) (toGint64 buf.f_bavail)

/-- The expression `(gint64) free_size_gb_no_notify * GIGABYTE`, with the macro
`GIGABYTE` expanded to `1024 * 1024 * 1024` as the preprocessor does. -/
def free_size_no_notify_bytes (d : DIskSpace) : Int :=
  gint64_mul (gint64_mul (gint64_mul (toGint64 d.free_size_gb_no_notify) 1024) 1024) 1024

/-- Embedding of `DIskSpace::ldsm_mount_has_space`. -/
def ldsm_mount_has_space (d : DIskSpace) (mount : LdsmMountInfo) : Bool :=
  let free_space := free_space_ratio mount.buf
  if Double.gt free_space d.free_percent_notify then true
  else if free_space_bytes mount.buf > free_size_no_notify_bytes d then true
  else false

/-- Embedding of `ldsm_mount_is_virtual`. -/
def ldsm_mount_is_virtual (mount : LdsmMountInfo) : Bool :=
  if mount.buf.f_blocks = 0 then true else false

/-! ## Notifier dispatch -/

/-- Embedding of `DIskSpace::ldsm_notify_for_mount`.  The call is logged in `attempts`.
`dialog = new LdsmDialog (...)` makes the member non-null and `delete dialog` destroys the
object without assigning to the member, which therefore stays non-null; the source has no
other assignment to `dialog` apart from the constructor.  The probes for the display name,
the trash directory and the analyzer binary only feed the dialog and are left out. -/
def ldsm_notify_for_mount (o : Oracle) (d : DIskSpace) (mount : LdsmMountInfo)
    (multiple_volumes other_usable_volumes : Bool) : Bool × DIskSpace :=
  let d := { d with attempts := d.attempts ++ [mount] }
  let retval := true
  if d.dialog then (retval, d)
  else
    let free_space := free_space_bytes mount.buf
    let path := mount.mount.mount_path
    let d := { d with dialog := true }
    let response := o.exec d.shown.length
    let d := { d with shown := d.shown ++
      [{ other_usable_volumes := other_usable_volumes, multiple_volumes := multiple_volumes,
         free_space := free_space, path := path, response := response }] }
    match response with
    | Response.GTK_RESPONSE_CANCEL => (false, d)
    | Response.LDSM_DIALOG_RESPONSE_ANALYZE => (false, { d with analyzed := d.analyzed ++ [path] })
    | Response.LDSM_DIALOG_RESPONSE_EMPTY_TRASH => (true, d)
    | Response.GTK_RESPONSE_NONE => (true, d)
    | Response.GTK_RESPONSE_DELETE_EVENT => (true, d)

/-! ## Notification state tracker -/

/-- The C library function `difftime`: the difference of two `time_t` values as a `double`. -/
def difftime (time1 time0 : Int) : Double := Double.ofInt (time1 - time0)

/-- The expression `(gdouble)(min_notify_period * 60)`: a product of C `int`s, converted. -/
def min_notify_seconds (d : DIskSpace) : Double :=
  Double.ofInt (toInt32 (d.min_notify_period * 60))

/-- The body of the `for` loop of `DIskSpace::ldsm_maybe_warn_mounts` for one element
`mount_info` of the list, from the value of `done` and the members before the iteration to
their values after it. -/
def ldsm_maybe_warn_mounts_body (o : Oracle) (multiple_volumes other_usable_volumes : Bool)
    (mount_info : LdsmMountInfo) (done : Bool) (d : DIskSpace) : Bool × DIskSpace :=
  if done then (done, d)
  else
    let path := mount_info.mount.mount_path
    let free_space := free_space_ratio mount_info.buf
    match g_hash_table_lookup d.ldsm_notified_hash path with
    | none =>
      let mount_info := { mount_info with notify_time := o.time d.time_calls }
      let d := { d with
        time_calls := d.time_calls + 1
        ldsm_notified_hash := g_hash_table_replace d.ldsm_notified_hash path mount_info }
      let r := ldsm_notify_for_mount o d mount_info multiple_volumes other_usable_volumes
      (if r.1 then true else done, r.2)
    | some previous_mount_info =>
      let previous_free_space := free_space_ratio previous_mount_info.buf
      if Double.gt (Double.sub previous_free_space free_space) d.free_percent_notify_again then
        let curr_time := o.time d.time_calls
        if Double.gt (difftime curr_time previous_mount_info.notify_time)
            (min_notify_seconds d) then
          let mount_info := { mount_info with notify_time := curr_time }
          let d := { d with
            time_calls := d.time_calls + 1
            ldsm_notified_hash := g_hash_table_replace d.ldsm_notified_hash path mount_info }
          let r := ldsm_notify_for_mount o d mount_info multiple_volumes other_usable_volumes
          (if r.1 then true else done, r.2)
        else
          let mount_info := { mount_info with notify_time := previous_mount_info.notify_time }
          let d := { d with
            time_calls := d.time_calls + 1
            ldsm_notified_hash := g_hash_table_replace d.ldsm_notified_hash path mount_info }
          (done, d)
      else (done, d)

/-- The `for` loop of `DIskSpace::ldsm_maybe_warn_mounts` over the rest of the list. -/
def ldsm_maybe_warn_mounts_loop (o : Oracle) (multiple_volumes other_usable_volumes : Bool) :
    List LdsmMountInfo → Bool → DIskSpace → DIskSpace
  | [], _, d => d
  | mount_info :: l, done, d =>
    let r := ldsm_maybe_warn_mounts_body o multiple_volumes other_usable_volumes mount_info done d
    ldsm_maybe_warn_mounts_loop o multiple_volumes other_usable_volumes l r.1 r.2

/-- Embedding of `DIskSpace::ldsm_maybe_warn_mounts`: the loop entered with `done = FALSE`. -/
def ldsm_maybe_warn_mounts (o : Oracle) (d : DIskSpace) (mounts : List LdsmMountInfo)
    (multiple_volumes other_usable_volumes : Bool) : DIskSpace :=
  ldsm_maybe_warn_mounts_loop o multiple_volumes other_usable_volumes mounts false d

/-! ## Mount enumeration and the check cycle -/

/-- The first loop of `DIskSpace::ldsm_check_all_mounts`: walks the static mount points and
prepends every eligible mount to `check_mounts`. -/
def ldsm_check_all_mounts_collect (src : MountSource) (d : DIskSpace) :
    List String → List LdsmMountInfo → List LdsmMountInfo
  | [], check_mounts => check_mounts
  | mount_point :: l, check_mounts =>
    match src.g_unix_mount_at mount_point with
    | none => ldsm_check_all_mounts_collect src d l check_mounts
    | some mount =>
      let path := mount.mount_path
      if mount.is_read_only then ldsm_check_all_mounts_collect src d l check_mounts
      else if ldsm_mount_should_ignore d mount then
        ldsm_check_all_mounts_collect src d l check_mounts
      else
        match src.statvfs path with
        | none => ldsm_check_all_mounts_collect src d l check_mounts
        | some buf =>
          let mount_info : LdsmMountInfo := { mount := mount, buf := buf, notify_time := 0 }
          if ldsm_mount_is_virtual mount_info then
            ldsm_check_all_mounts_collect src d l check_mounts
          else ldsm_check_all_mounts_collect src d l (mount_info :: check_mounts)

/-- The second loop of `DIskSpace::ldsm_check_all_mounts`: walks `check_mounts`, prepends the
mounts without space to `full_mounts` and removes the table entry of every other mount. -/
def ldsm_check_all_mounts_classify :
    List LdsmMountInfo → List LdsmMountInfo → DIskSpace → List LdsmMountInfo × DIskSpace
  | [], full_mounts, d => (full_mounts, d)
  | mount_info :: l, full_mounts, d =>
    if !ldsm_mount_has_space d mount_info then
      ldsm_check_all_mounts_classify l (mount_info :: full_mounts) d
    else
      ldsm_check_all_mounts_classify l full_mounts
        { d with ldsm_notified_hash :=
            g_hash_table_remove d.ldsm_notified_hash mount_info.mount.mount_path }

/-- The list `check_mounts` of `DIskSpace::ldsm_check_all_mounts` after the first loop. -/
def check_mounts (src : MountSource) (d : DIskSpace) : List LdsmMountInfo :=
  ldsm_check_all_mounts_collect src d src.g_unix_mount_points_get []

/-- The list `full_mounts` of `DIskSpace::ldsm_check_all_mounts` after the second loop. -/
def full_mounts (src : MountSource) (d : DIskSpace) : List LdsmMountInfo :=
  (ldsm_check_all_mounts_classify (check_mounts src d) [] d).1

/-- Embedding of `DIskSpace::ldsm_check_all_mounts`: one check cycle. -/
def ldsm_check_all_mounts (o : Oracle) (src : MountSource) (d : DIskSpace) : DIskSpace :=
  let check_mounts := check_mounts src d
  let number_of_mounts := check_mounts.length
  let multiple_volumes := decide (number_of_mounts > 1)
  let r := ldsm_check_all_mounts_classify check_mounts [] d
  let full_mounts := r.1
  let number_of_full_mounts := full_mounts.length
  let other_usable_volumes := decide (number_of_mounts > number_of_full_mounts)
  ldsm_maybe_warn_mounts o r.2 full_mounts multiple_volumes other_usable_volumes

/-- The members as the constructor `DIskSpace::DIskSpace` sets them, with the empty table
that `UsdLdsmSetup` creates and an empty log. -/
def DiskSpaceNew : DIskSpace :=
  { ldsm_notified_hash := []
    free_percent_notify := Double.ofRat (5 / 100)
    free_percent_notify_again := Double.ofRat (1 / 100)
    free_size_gb_no_notify := 2
    min_notify_period := 10
    ignore_paths := []
    dialog := false
    time_calls := 0
    attempts := []
    shown := []
    analyzed := [] }

/-- A sequence of check cycles, oldest first, each with the mount table it finds. -/
def run_checks (o : Oracle) : List MountSource → DIskSpace → DIskSpace
  | [], d => d
  | src :: rest, d => run_checks o rest (ldsm_check_all_mounts o src d)

/-! ## Notions used to state the properties -/

/-- The configuration members of `d2` are those of `d1`. -/
def same_config (d1 d2 : DIskSpace) : Prop :=
  d2.free_percent_notify = d1.free_percent_notify ∧
  d2.free_percent_notify_again = d1.free_percent_notify_again ∧
  d2.free_size_gb_no_notify = d1.free_size_gb_no_notify ∧
  d2.min_notify_period = d1.min_notify_period ∧
  d2.ignore_paths = d1.ignore_paths

/-- The mount path `p` is classified low in a check of `src`: a mount with this path is put
on `full_mounts`. -/
def classified_low (src : MountSource) (d : DIskSpace) (p : String) : Bool :=
  (full_mounts src d).any (fun m => decide (m.mount.mount_path = p))

/-- The mount path `p` is classified sufficient in a check of `src`: a mount with this path
is on `check_mounts` and `ldsm_mount_has_space` holds for it. -/
def classified_sufficient (src : MountSource) (d : DIskSpace) (p : String) : Bool :=
  (check_mounts src d).any
    (fun m => decide (m.mount.mount_path = p) && ldsm_mount_has_space d m)

/-- The values the `QGSettings` object of the housekeeping schema returns: the two
`toDouble ()` reads, the two `toInt ()` reads and the result of `getStrv` for `ignore-paths`
(`none` when it is `NULL`). -/
structure QGSettings where
  free_percent_notify : Double
  free_percent_notify_again : Double
  free_size_gb_no_notify : Int
  min_notify_period : Int
  ignore_paths : Option (List String)

/-- Embedding of `g_hash_table_foreach_remove`: every entry for which `func` returns true is
removed, every other entry is kept as it is. -/
def g_hash_table_foreach_remove (h : List (String × LdsmMountInfo))
    (func : String → LdsmMountInfo → Bool) : List (String × LdsmMountInfo) :=
  h.filter (fun e => !func e.1 e.2)

/-- Embedding of `ldsm_is_hash_item_in_ignore_paths`. -/
def ldsm_is_hash_item_in_ignore_paths (d : DIskSpace) (key : String)
    (_value : LdsmMountInfo) : Bool :=
  ldsm_mount_is_user_ignore d key

/-- The loop of `usdLdsmGetConfig` over `settings_list`: every string is prepended to
`ignore_paths`. -/
def usdLdsmGetConfig_paths : List String → List String → List String
  | [], ignore_paths => ignore_paths
  | s :: rest, ignore_paths => usdLdsmGetConfig_paths rest (s :: ignore_paths)

/-- Embedding of `DIskSpace::usdLdsmGetConfig`. -/
def usdLdsmGetConfig (settings : QGSettings) (d : DIskSpace) : DIskSpace :=
  let free_percent_notify := settings.free_percent_notify
  let free_percent_notify :=
    if Double.ge free_percent_notify (Double.ofInt 1) ||
        Double.lt free_percent_notify (Double.ofInt 0) then Double.ofRat (5 / 100)
    else free_percent_notify
  let free_percent_notify_again := settings.free_percent_notify_again
  let free_percent_notify_again :=
    if Double.ge free_percent_notify_again (Double.ofInt 1) ||
        Double.lt free_percent_notify_again (Double.ofInt 0) then Double.ofRat (1 / 100)
    else free_percent_notify_again
  let d := { d with
    free_percent_notify := free_percent_notify
    free_percent_notify_again := free_percent_notify_again
    free_size_gb_no_notify := settings.free_size_gb_no_notify
    min_notify_period := settings.min_notify_period
    ignore_paths := [] }
  match settings.ignore_paths with
  | none => d
  | some settings_list =>
    let d := { d with ignore_paths := usdLdsmGetConfig_paths settings_list d.ignore_paths }
    { d with
      ldsm_notified_hash :=
        g_hash_table_foreach_remove d.ldsm_notified_hash (ldsm_is_hash_item_in_ignore_paths d) }

/-- Embedding of `ldsm_is_hash_item_not_in_mounts`; `mounts` is the list passed as
`user_data`. -/
def ldsm_is_hash_item_not_in_mounts (key : String) (_value : LdsmMountInfo) :
    List GUnixMountEntry → Bool
  | [] => true
  | mount :: l =>
    let path := mount.mount_path
    if path = key then false else ldsm_is_hash_item_not_in_mounts key _value l

/-- The purge step of `DIskSpace::ldsm_mounts_changed`; `mounts` is the result of
`g_unix_mounts_get`, the list of live mounts. -/
def ldsm_mounts_changed_purge (mounts : List GUnixMountEntry) (d : DIskSpace) : DIskSpace :=
  { d with
    ldsm_notified_hash :=
      g_hash_table_foreach_remove d.ldsm_notified_hash
        (fun key value => ldsm_is_hash_item_not_in_mounts key value mounts) }

/-- Embedding of `DIskSpace::ldsm_mounts_changed`: the purge, then a check of all mounts.
The reset of the periodic timer is left out. -/
def ldsm_mounts_changed (o : Oracle) (src : MountSource) (mounts : List GUnixMountEntry)
    (d : DIskSpace) : DIskSpace :=
  ldsm_check_all_mounts o src (ldsm_mounts_changed_purge mounts d)

/-- What one iteration of the first loop of `DIskSpace::ldsm_check_all_mounts` puts on
`check_mounts` for the static mount point `mount_point`: `none` when the iteration ends in
`continue`. -/
def check_mounts_candidate (src : MountSource) (d : DIskSpace) (mount_point : String) :
    Option LdsmMountInfo :=
  match src.g_unix_mount_at mount_point with
  | none => none
  | some mount =>
    if mount.is_read_only then none
    else if ldsm_mount_should_ignore d mount then none
    else
      match src.statvfs mount.mount_path with
      | none => none
      | some buf =>
        let mount_info : LdsmMountInfo := { mount := mount, buf := buf, notify_time := 0 }
        if ldsm_mount_is_virtual mount_info then none else some mount_info

/-! ## Concrete inputs -/

/-- Example A of the specification: mount `/data`, 40 of 1000 blocks of 4096 bytes available. -/
def mountA40 : LdsmMountInfo :=
  { mount := { mount_path := "/data", device_path := "/dev/sda1", filesystem_type := "ext4",
               is_read_only := false }
    buf := { f_frsize := 4096, f_blocks := 1000, f_bavail := 40 }
    notify_time := 0 }

/-- The mount `/data` of Example A later on, with 10 of 1000 blocks available. -/
def mountA10 : LdsmMountInfo :=
  { mountA40 with buf := { f_frsize := 4096, f_blocks := 1000, f_bavail := 10 } }

/-- A second low mount, `/home`, 30 of 1000 blocks of 4096 bytes available. -/
def mountB30 : LdsmMountInfo :=
  { mount := { mount_path := "/home", device_path := "/dev/sda2", filesystem_type := "ext4",
               is_read_only := false }
    buf := { f_frsize := 4096, f_blocks := 1000, f_bavail := 30 }
    notify_time := 0 }

/-- A `tmpfs` mount with no blocks (Example B of the specification). -/
def mountTmp : GUnixMountEntry :=
  { mount_path := "/run", device_path := "tmpfs", filesystem_type := "tmpfs",
    is_read_only := false }

/-- The fresh monitor after `/data` was entered in the table at time 0 with 40 blocks free. -/
def diskNotified : DIskSpace :=
  { DiskSpaceNew with ldsm_notified_hash := [("/data", mountA40)] }

/-- The fresh monitor with the `dialog` member already non-null. -/
def diskDialogActive : DIskSpace := { DiskSpaceNew with dialog := true }

/-- Static mount points `/data` and `/home`, both mounted, with the statistics of `mountA40`
and `mountB30`; `/run` is a mounted `tmpfs` without blocks. -/
def srcTwoLow : MountSource :=
  { g_unix_mount_points_get := ["/data", "/home", "/run"]
    g_unix_mount_at := fun p =>
      if p = "/data" then some mountA40.mount
      else if p = "/home" then some mountB30.mount
      else if p = "/run" then some mountTmp
      else none
    statvfs := fun p =>
      if p = "/data" then some mountA40.buf
      else if p = "/home" then some mountB30.buf
      else if p = "/run" then some { f_frsize := 4096, f_blocks := 0, f_bavail := 0 }
      else none }

/-- The clock reads 700 at every call and every dialog is answered `GTK_RESPONSE_CANCEL`. -/
def oracleCancel : Oracle :=
  { time := fun _ => 700, exec := fun _ => Response.GTK_RESPONSE_CANCEL }

/-- The clock reads 700 at every call and every dialog is closed (`GTK_RESPONSE_NONE`). -/
def oracleDismiss : Oracle :=
  { time := fun _ => 700, exec := fun _ => Response.GTK_RESPONSE_NONE }

/-- The clock reads 700 at every call and every dialog is answered with the analyze button. -/
def oracleAnalyze : Oracle :=
  { time := fun _ => 700, exec := fun _ => Response.LDSM_DIALOG_RESPONSE_ANALYZE }

/-- Static mount point `/data`, mounted, with 500 of 1000 blocks available. -/
def srcRecovered : MountSource :=
  { g_unix_mount_points_get := ["/data"]
    g_unix_mount_at := fun p => if p = "/data" then some mountA40.mount else none
    statvfs := fun p =>
      if p = "/data" then some { f_frsize := 4096, f_blocks := 1000, f_bavail := 500 }
      else none }

/-! ## Further concrete inputs -/

/-- The mount `/data` of Example A five seconds later, with 35 of 1000 blocks available. -/
def mountA35 : LdsmMountInfo :=
  { mountA40 with buf := { f_frsize := 4096, f_blocks := 1000, f_bavail := 35 } }

/-- The mount `/home` later on, with 10 of 1000 blocks available. -/
def mountB10 : LdsmMountInfo :=
  { mountB30 with buf := { f_frsize := 4096, f_blocks := 1000, f_bavail := 10 } }

/-- The fresh monitor after `/home` was entered in the table at time 0 with 30 blocks free. -/
def diskHomeNotified : DIskSpace :=
  { DiskSpaceNew with ldsm_notified_hash := [("/home", mountB30)] }

/-- The clock reads 5 at every call and every dialog is closed (`GTK_RESPONSE_NONE`). -/
def oracleSoonDismiss : Oracle :=
  { time := fun _ => 5, exec := fun _ => Response.GTK_RESPONSE_NONE }

/-- A mounted loop device `/dev/loop0` with an `ext4` file system. -/
def mountLoop0 : GUnixMountEntry :=
  { mount_path := "/mnt/image", device_path := "/dev/loop0", filesystem_type := "ext4",
    is_read_only := false }

/-- Static mount point `/mnt/image`, the mounted loop device, 40 of 1000 blocks available. -/
def srcLoop : MountSource :=
  { g_unix_mount_points_get := ["/mnt/image"]
    g_unix_mount_at := fun p => if p = "/mnt/image" then some mountLoop0 else none
    statvfs := fun p =>
      if p = "/mnt/image" then some { f_frsize := 4096, f_blocks := 1000, f_bavail := 40 }
      else none }

/-- A mount whose device path is the denylist entry `/dev/loop` itself. -/
def mountLoopExact : GUnixMountEntry :=
  { mount_path := "/mnt/image", device_path := "/dev/loop", filesystem_type := "ext4",
    is_read_only := false }

/-- A mount with 450359962737049 of 9007199254740979 one-byte blocks available: the exact
quotient is above the `double` 0.05, the quotient rounded to `double` is equal to it. -/
def mountHuge : LdsmMountInfo :=
  { mount := { mount_path := "/srv", device_path := "/dev/sdb1", filesystem_type := "ext4",
               is_read_only := false }
    buf := { f_frsize := 1, f_blocks := 9007199254740979, f_bavail := 450359962737049 }
    notify_time := 0 }

/-- The fresh monitor with `free_size_gb_no_notify` set to 1000000. -/
def diskBigLimit : DIskSpace := { DiskSpaceNew with free_size_gb_no_notify := 1000000 }

/-- The monitor of `diskHomeNotified` with `min_notify_period` set to 71582789 minutes: the
product with 60 is 4294967340, which is 44 modulo `2 ^ 32`. -/
def diskLongPeriod : DIskSpace := { diskHomeNotified with min_notify_period := 71582789 }

/-- The clock reads 100 at every call and every dialog is closed (`GTK_RESPONSE_NONE`). -/
def oracleHundred : Oracle :=
  { time := fun _ => 100, exec := fun _ => Response.GTK_RESPONSE_NONE }

/-- Settings whose two percentage keys hold NaN. -/
def settingsNaN : QGSettings :=
  { free_percent_notify := Double.nan
    free_percent_notify_again := Double.nan
    free_size_gb_no_notify := 2
    min_notify_period := 10
    ignore_paths := none }

/-- The mount `/data` of Example A with 30 of 1000 blocks available. -/
def mountA30 : LdsmMountInfo :=
  { mountA40 with buf := { f_frsize := 4096, f_blocks := 1000, f_bavail := 30 } }

/-! ## Machine-integer lemmas -/

theorem toGint64_of_range (n : Int) (h1 : -2 ^ 63 ≤ n) (h2 : n < 2 ^ 63) : toGint64 n = n := by
  unfold toGint64; omega

theorem toGint64_modEq (n : Int) : toGint64 n ≡ n [ZMOD 2 ^ 64] := by
  unfold toGint64 Int.ModEq
  omega

theorem toGint64_congr {a b : Int} (h : a ≡ b [ZMOD 2 ^ 64]) : toGint64 a = toGint64 b := by
  unfold toGint64
  have h2 : (a + 2 ^ 63) % 2 ^ 64 = (b + 2 ^ 63) % 2 ^ 64 := h.add_right (2 ^ 63)
  rw [h2]

theorem free_space_bytes_eq (buf : Statvfs) :
    free_space_bytes buf = toGint64 ((buf.f_frsize : Int) * (buf.f_bavail : Int)) := by
  unfold free_space_bytes gint64_mul
  exact toGint64_congr ((toGint64_modEq _).mul (toGint64_modEq _))

theorem free_size_no_notify_bytes_eq (d : DIskSpace)
    (h1 : -2 ^ 31 ≤ d.free_size_gb_no_notify) (h2 : d.free_size_gb_no_notify < 2 ^ 32) :
    free_size_no_notify_bytes d = d.free_size_gb_no_notify * 1024 * 1024 * 1024 := by
  unfold free_size_no_notify_bytes gint64_mul toGint64
  omega

theorem toInt32_of_range (n : Int) (h1 : -2 ^ 31 ≤ n) (h2 : n < 2 ^ 31) : toInt32 n = n := by
  unfold toInt32; omega

theorem free_size_no_notify_bytes_wrap (d : DIskSpace) :
    free_size_no_notify_bytes d = toGint64 (d.free_size_gb_no_notify * 1024 * 1024 * 1024) := by
  unfold free_size_no_notify_bytes gint64_mul
  exact toGint64_congr ((((toGint64_modEq _).mul_right 1024).trans
    (Int.ModEq.refl _) |> fun h => ((toGint64_modEq _).trans h).mul_right 1024) |>
    fun h => ((toGint64_modEq _).trans h).mul_right 1024)

theorem min_notify_seconds_of_range (d : DIskSpace)
    (hlo : -2 ^ 31 ≤ d.min_notify_period * 60) (hhi : d.min_notify_period * 60 < 2 ^ 31) :
    min_notify_seconds d = Double.ofInt (d.min_notify_period * 60) := by
  unfold min_notify_seconds
  rw [toInt32_of_range _ hlo hhi]

/-- In IEEE arithmetic `a <= b` excludes `a > b`. -/
theorem double_gt_false_of_le (a b : Double) (h : Double.le a b = true) :
    Double.gt a b = false := by
  unfold Double.gt
  cases a with
  | nan => simp [Double.le] at h
  | finite x =>
    cases b with
    | nan => simp [Double.le] at h
    | finite y =>
      simp only [Double.le, decide_eq_true_eq] at h
      simp [Double.lt, not_lt.mpr h]
    | inf t =>
      simp only [Double.le, Bool.not_eq_true'] at h
      simp [Double.lt, h]
  | inf s =>
    cases b with
    | nan => simp [Double.le] at h
    | finite y =>
      simp only [Double.le] at h
      simp [Double.lt, h]
    | inf t =>
      simp only [Double.le, Bool.or_eq_true, Bool.not_eq_true'] at h
      cases s <;> cases t <;> simp_all [Double.lt]

/-! ## Lemmas on the conversion of integers to `double` -/

theorem ilog2_le (fuel : Nat) : ∀ (n b : Nat), n < 2 ^ (b + 1) → Double.ilog2 fuel n ≤ b := by
  induction fuel with
  | zero => intro n b _; simp [Double.ilog2]
  | succ fuel ih =>
    intro n b h
    unfold Double.ilog2
    by_cases h2 : n < 2
    · simp [h2]
    · simp only [h2, if_false]
      cases b with
      | zero => omega
      | succ b =>
        have : n / 2 < 2 ^ (b + 1) := by
          rw [pow_succ] at h
          omega
        have := ih (n / 2) b this
        omega

theorem ilog2_ge (fuel : Nat) : ∀ (n b : Nat), n ≤ fuel → 2 ^ b ≤ n → b ≤ Double.ilog2 fuel n := by
  induction fuel with
  | zero =>
    intro n b hn hb
    have : 0 < 2 ^ b := Nat.pow_pos (by decide)
    omega
  | succ fuel ih =>
    intro n b hn hb
    unfold Double.ilog2
    by_cases h2 : n < 2
    · simp only [h2, if_true]
      cases b with
      | zero => omega
      | succ b =>
        have : 0 < 2 ^ b := Nat.pow_pos (by decide)
        rw [pow_succ] at hb
        omega
    · simp only [h2, if_false]
      cases b with
      | zero => omega
      | succ b =>
        have hb2 : 2 ^ b ≤ n / 2 := by
          rw [pow_succ] at hb
          omega
        have := ih (n / 2) b (by omega) hb2
        omega

theorem ilog2_pow_le (fuel : Nat) : ∀ n : Nat, 1 ≤ n → 2 ^ Double.ilog2 fuel n ≤ n := by
  induction fuel with
  | zero => intro n h; simpa [Double.ilog2] using h
  | succ fuel ih =>
    intro n h
    unfold Double.ilog2
    by_cases h2 : n < 2
    · simpa [h2] using h
    · simp only [h2, if_false]
      have := ih (n / 2) (by omega)
      rw [pow_succ]
      omega

theorem binade_one (n : Nat) (hn : 1 ≤ n) : Double.binade n 1 = (Double.ilog2 n n : Int) := by
  have h1 : Double.ilog2 1 1 = 0 := by decide
  have hp := ilog2_pow_le n n hn
  simp [Double.binade, h1, hp]

theorem roundHalfEven_one (a : Nat) : Double.roundHalfEven a 1 = a := by
  simp [Double.roundHalfEven, Nat.mod_one]

theorem roundHalfEven_ge (n d : Nat) : n / d ≤ Double.roundHalfEven n d := by
  unfold Double.roundHalfEven
  simp only
  split_ifs <;> omega
theorem roundMag_small (n : Nat) (hn : 1 ≤ n) (h : n < 2 ^ 53) :
    Double.roundMag n 1 = (n : ℚ) := by
  have he : Double.ilog2 n n ≤ 52 := ilog2_le _ _ 52 h
  unfold Double.roundMag
  simp only [binade_one n hn]
  have hk : max (Double.ilog2 n n : Int) (-1022) - 52 = (Double.ilog2 n n : Int) - 52 := by
    omega
  rw [hk]
  by_cases h52 : Double.ilog2 n n = 52
  · rw [h52]
    simp [roundHalfEven_one]
  · have hneg : ¬ (0 : Int) ≤ (Double.ilog2 n n : Int) - 52 := by omega
    simp only [hneg, if_false, roundHalfEven_one]
    have hpos : ((2 ^ (-((Double.ilog2 n n : Int) - 52)).toNat : Nat) : ℚ) ≠ 0 := by
      positivity
    rw [Nat.cast_mul]
    field_simp

theorem roundMag_large (n : Nat) (h : 2 ^ 53 ≤ n) :
    ((2 ^ 53 : Nat) : ℚ) ≤ Double.roundMag n 1 := by
  have hn : 1 ≤ n := le_trans (Nat.one_le_two_pow) h
  have he : 53 ≤ Double.ilog2 n n := ilog2_ge n n 53 (le_refl n) h
  have hp := ilog2_pow_le n n hn
  unfold Double.roundMag
  simp only [binade_one n hn]
  have hk : max (Double.ilog2 n n : Int) (-1022) - 52 = (Double.ilog2 n n : Int) - 52 := by
    omega
  rw [hk]
  have hpos : (0 : Int) ≤ (Double.ilog2 n n : Int) - 52 := by omega
  simp only [hpos, if_true, one_mul]
  obtain ⟨j, hj⟩ : ∃ j : Nat, Double.ilog2 n n = j + 53 := ⟨Double.ilog2 n n - 53, by omega⟩
  have hj2 : ((Double.ilog2 n n : Int) - 52).toNat = j + 1 := by omega
  rw [hj2]
  have hfl := roundHalfEven_ge n (2 ^ (j + 1))
  have hdiv : 2 ^ 52 ≤ n / 2 ^ (j + 1) := by
    rw [Nat.le_div_iff_mul_le (Nat.pow_pos (by decide))]
    calc 2 ^ 52 * 2 ^ (j + 1) = 2 ^ (j + 53) := by rw [← pow_add]; congr 1; omega
      _ ≤ n := by rw [← hj]; exact hp
  have hnat : 2 ^ 53 ≤ Double.roundHalfEven n (2 ^ (j + 1)) * 2 ^ (j + 1) := by
    calc 2 ^ 53 = 2 ^ 52 * 2 ^ 1 := by norm_num
      _ ≤ Double.roundHalfEven n (2 ^ (j + 1)) * 2 ^ (j + 1) :=
        Nat.mul_le_mul (le_trans hdiv hfl) (Nat.pow_le_pow_right (by decide) (by omega))
  exact_mod_cast hnat
theorem ofInt_small (x : Int) (h : x.natAbs < 2 ^ 53) :
    Double.ofInt x = Double.finite (x : ℚ) := by
  unfold Double.ofInt Double.round
  by_cases hx : x = 0
  · subst hx; simp
  · have hn : 1 ≤ x.natAbs := Int.natAbs_pos.mpr hx
    have hmag := roundMag_small x.natAbs hn h
    simp only [Int.cast_eq_zero, hx, if_false, Rat.num_intCast, Rat.den_intCast, hmag]
    have hlt : ¬ ((2 ^ 1024 : Nat) : ℚ) ≤ (x.natAbs : ℚ) := by
      rw [not_le]
      have : x.natAbs < 2 ^ 1024 :=
        lt_of_lt_of_le h (Nat.pow_le_pow_right (by decide) (by decide))
      exact Nat.cast_lt.mpr this
    simp only [hlt, if_false]
    by_cases hneg : x < 0
    · have hq : ((x : ℚ) < 0) := by exact_mod_cast hneg
      simp only [hq, if_true]
      congr 1
      have : (x.natAbs : Int) = -x := by omega
      have h2 : (x.natAbs : ℚ) = ((-x : Int) : ℚ) := by
        rw [← this]; exact (Int.cast_natCast _).symm
      rw [h2, Int.cast_neg, neg_neg]
    · have hq : ¬ ((x : ℚ) < 0) := by
        rw [not_lt]; exact_mod_cast not_lt.mp hneg
      simp only [hq, if_false]
      congr 1
      have : (x.natAbs : Int) = x := by omega
      rw [← Int.cast_natCast, this]

theorem ofInt_large_pos (x : Int) (h : 2 ^ 53 ≤ x) :
    Double.ofInt x = Double.inf false ∨
      ∃ v : ℚ, ((2 ^ 53 : Nat) : ℚ) ≤ v ∧ Double.ofInt x = Double.finite v := by
  unfold Double.ofInt Double.round
  have hx : x ≠ 0 := by omega
  have hmag := roundMag_large x.natAbs (by omega)
  have hq : ¬ ((x : ℚ) < 0) := by
    rw [not_lt]; exact_mod_cast (show (0 : Int) ≤ x by omega)
  simp only [Int.cast_eq_zero, hx, if_false, Rat.num_intCast, Rat.den_intCast, hq,
    decide_False]
  by_cases hov : ((2 ^ 1024 : Nat) : ℚ) ≤ Double.roundMag x.natAbs 1
  · left; simp only [hov, if_true]
  · right; simp only [hov, if_false]
    exact ⟨_, hmag, rfl⟩

theorem ofInt_large_neg (x : Int) (h : x ≤ -2 ^ 53) :
    Double.ofInt x = Double.inf true ∨
      ∃ v : ℚ, ((2 ^ 53 : Nat) : ℚ) ≤ v ∧ Double.ofInt x = Double.finite (-v) := by
  unfold Double.ofInt Double.round
  have hx : x ≠ 0 := by omega
  have hmag := roundMag_large x.natAbs (by omega)
  have hq : ((x : ℚ) < 0) := by exact_mod_cast (show x < 0 by omega)
  simp only [Int.cast_eq_zero, hx, if_false, Rat.num_intCast, Rat.den_intCast, hq,
    decide_True, if_true]
  by_cases hov : ((2 ^ 1024 : Nat) : ℚ) ≤ Double.roundMag x.natAbs 1
  · left; simp only [hov, if_true]
  · right; simp only [hov, if_false]
    exact ⟨_, hmag, rfl⟩

/-- For an integer `x` and an integer `m` of magnitude below `2 ^ 53`, the comparison of
their conversions to `double` is the comparison of the integers. -/
theorem double_gt_ofInt_iff (x m : Int) (hm : m.natAbs < 2 ^ 53) :
    Double.gt (Double.ofInt x) (Double.ofInt m) = true ↔ m < x := by
  rw [ofInt_small m hm]
  unfold Double.gt
  have hmq1 : -((2 ^ 53 : Nat) : ℚ) < (m : ℚ) := by
    have : -((2 ^ 53 : Nat) : Int) < m := by omega
    exact_mod_cast this
  have hmq2 : (m : ℚ) < ((2 ^ 53 : Nat) : ℚ) := by
    have : m < ((2 ^ 53 : Nat) : Int) := by omega
    exact_mod_cast this
  by_cases hs : x.natAbs < 2 ^ 53
  · rw [ofInt_small x hs]
    simp [Double.lt]
  · by_cases hpos : 0 ≤ x
    · have hx : 2 ^ 53 ≤ x := by omega
      have hmx : m < x := by omega
      rcases ofInt_large_pos x hx with h | ⟨v, hv, h⟩
      · rw [h]; simp [Double.lt, hmx]
      · rw [h]
        have : (m : ℚ) < v := lt_of_lt_of_le hmq2 hv
        simp [Double.lt, this, hmx]
    · have hx : x ≤ -2 ^ 53 := by omega
      have hmx : ¬ m < x := by omega
      rcases ofInt_large_neg x hx with h | ⟨v, hv, h⟩
      · rw [h]; simp [Double.lt, hmx]
      · rw [h]
        have : ¬ (m : ℚ) < -v := by
          rw [not_lt]
          linarith
        simp [Double.lt, this, hmx]

theorem toInt32_range (n : Int) : -2 ^ 31 ≤ toInt32 n ∧ toInt32 n < 2 ^ 31 := by
  unfold toInt32; omega

/-- The time test of the loop of `ldsm_maybe_warn_mounts` in integers: `difftime` exceeds
`(gdouble)(min_notify_period * 60)` exactly when the difference of the two times exceeds the
`int` product. -/
theorem time_gate_iff (d : DIskSpace) (t1 t0 : Int) :
    Double.gt (difftime t1 t0) (min_notify_seconds d) = true ↔
      toInt32 (d.min_notify_period * 60) < t1 - t0 := by
  unfold difftime min_notify_seconds
  have hr := toInt32_range (d.min_notify_period * 60)
  exact double_gt_ofInt_iff _ _ (by omega)

theorem time_gate_false_iff (d : DIskSpace) (t1 t0 : Int) :
    Double.gt (difftime t1 t0) (min_notify_seconds d) = false ↔
      t1 - t0 ≤ toInt32 (d.min_notify_period * 60) := by
  rw [← not_lt, ← time_gate_iff d t1 t0, Bool.not_eq_true]

/-! ## Lemmas on the notification table -/

theorem lookup_remove_self (h : List (String × LdsmMountInfo)) (k : String) :
    g_hash_table_lookup (g_hash_table_remove h k) k = none := by
  induction h with
  | nil => rfl
  | cons e rest ih =>
    obtain ⟨k0, v0⟩ := e
    by_cases hk : k0 = k
    · simp [g_hash_table_remove, hk, ih]
    · simp [g_hash_table_remove, g_hash_table_lookup, hk, ih]

theorem lookup_remove_ne (h : List (String × LdsmMountInfo)) {k p : String} (hne : k ≠ p) :
    g_hash_table_lookup (g_hash_table_remove h k) p = g_hash_table_lookup h p := by
  induction h with
  | nil => rfl
  | cons e rest ih =>
    obtain ⟨k0, v0⟩ := e
    by_cases hk : k0 = k
    · have hp : ¬ k0 = p := fun hp => hne (hk ▸ hp)
      simp [g_hash_table_remove, g_hash_table_lookup, hk, ih, hne]
    · by_cases hp : k0 = p
      · subst hp
        simp [g_hash_table_remove, g_hash_table_lookup, hk]
      · simp [g_hash_table_remove, g_hash_table_lookup, hk, hp, ih]

theorem lookup_replace_self (h : List (String × LdsmMountInfo)) (k : String)
    (v : LdsmMountInfo) : g_hash_table_lookup (g_hash_table_replace h k v) k = some v := by
  simp [g_hash_table_replace, g_hash_table_lookup]

theorem lookup_replace_ne (h : List (String × LdsmMountInfo)) {k p : String}
    (v : LdsmMountInfo) (hne : k ≠ p) :
    g_hash_table_lookup (g_hash_table_replace h k v) p = g_hash_table_lookup h p := by
  simp [g_hash_table_replace, g_hash_table_lookup, hne, lookup_remove_ne h hne]

theorem lookup_remove_some (h : List (String × LdsmMountInfo)) (k p : String)
    (hs : g_hash_table_lookup (g_hash_table_remove h k) p ≠ none) :
    k ≠ p ∧ g_hash_table_lookup h p ≠ none := by
  by_cases hk : k = p
  · subst hk
    exact absurd (lookup_remove_self h k) hs
  · exact ⟨hk, by rwa [lookup_remove_ne h hk] at hs⟩

/-! ## Lemmas on `ldsm_notify_for_mount` -/

theorem same_config_refl (d : DIskSpace) : same_config d d := ⟨rfl, rfl, rfl, rfl, rfl⟩

theorem same_config_trans {d1 d2 d3 : DIskSpace} (h12 : same_config d1 d2)
    (h23 : same_config d2 d3) : same_config d1 d3 := by
  obtain ⟨a1, a2, a3, a4, a5⟩ := h12
  obtain ⟨b1, b2, b3, b4, b5⟩ := h23
  exact ⟨b1.trans a1, b2.trans a2, b3.trans a3, b4.trans a4, b5.trans a5⟩

theorem notify_of_dialog (o : Oracle) (d : DIskSpace) (m : LdsmMountInfo) (mv ouv : Bool)
    (h : d.dialog = true) :
    ldsm_notify_for_mount o d m mv ouv = (true, { d with attempts := d.attempts ++ [m] }) := by
  simp [ldsm_notify_for_mount, h]

theorem notify_frame (o : Oracle) (d : DIskSpace) (m : LdsmMountInfo) (mv ouv : Bool) :
    (ldsm_notify_for_mount o d m mv ouv).2.ldsm_notified_hash = d.ldsm_notified_hash ∧
    (ldsm_notify_for_mount o d m mv ouv).2.attempts = d.attempts ++ [m] ∧
    (ldsm_notify_for_mount o d m mv ouv).2.time_calls = d.time_calls ∧
    (ldsm_notify_for_mount o d m mv ouv).2.dialog = true ∧
    same_config d (ldsm_notify_for_mount o d m mv ouv).2 := by
  unfold ldsm_notify_for_mount same_config
  by_cases h : d.dialog = true
  · simp [h]
  · simp only [h]
    cases o.exec d.shown.length <;> simp

theorem notify_shown_of_no_dialog (o : Oracle) (d : DIskSpace) (m : LdsmMountInfo)
    (mv ouv : Bool) (h : d.dialog = false) :
    (ldsm_notify_for_mount o d m mv ouv).2.shown = d.shown ++
      [{ other_usable_volumes := ouv, multiple_volumes := mv,
         free_space := free_space_bytes m.buf, path := m.mount.mount_path,
         response := o.exec d.shown.length }] := by
  unfold ldsm_notify_for_mount
  simp only [h]
  cases o.exec d.shown.length <;> simp

theorem notify_shown_of_dialog (o : Oracle) (d : DIskSpace) (m : LdsmMountInfo)
    (mv ouv : Bool) (h : d.dialog = true) :
    (ldsm_notify_for_mount o d m mv ouv).2.shown = d.shown := by
  rw [notify_of_dialog o d m mv ouv h]

/-! ## Lemmas on one iteration of the loop of `ldsm_maybe_warn_mounts` -/

theorem pair_of_flag {α : Type} (r : Bool × α) :
    ((if (false = true) then true else if r.1 = true then true else false), r.2) = r := by
  obtain ⟨b, x⟩ := r
  cases b <;> rfl

theorem body_done (o : Oracle) (mv ouv : Bool) (mi : LdsmMountInfo) (d : DIskSpace) :
    ldsm_maybe_warn_mounts_body o mv ouv mi true d = (true, d) := by
  simp [ldsm_maybe_warn_mounts_body]

theorem body_none (o : Oracle) (mv ouv : Bool) (mi : LdsmMountInfo) (d : DIskSpace)
    (h : g_hash_table_lookup d.ldsm_notified_hash mi.mount.mount_path = none) :
    ldsm_maybe_warn_mounts_body o mv ouv mi false d =
      ldsm_notify_for_mount o
        { d with
          time_calls := d.time_calls + 1
          ldsm_notified_hash := g_hash_table_replace d.ldsm_notified_hash mi.mount.mount_path
            { mi with notify_time := o.time d.time_calls } }
        { mi with notify_time := o.time d.time_calls } mv ouv := by
  simp only [ldsm_maybe_warn_mounts_body, h]
  exact pair_of_flag _

theorem body_some_notify (o : Oracle) (mv ouv : Bool) (mi prev : LdsmMountInfo)
    (d : DIskSpace)
    (h : g_hash_table_lookup d.ldsm_notified_hash mi.mount.mount_path = some prev)
    (hA : Double.gt (Double.sub (free_space_ratio prev.buf) (free_space_ratio mi.buf))
      d.free_percent_notify_again = true)
    (hB : Double.gt (difftime (o.time d.time_calls) prev.notify_time)
      (min_notify_seconds d) = true) :
    ldsm_maybe_warn_mounts_body o mv ouv mi false d =
      ldsm_notify_for_mount o
        { d with
          time_calls := d.time_calls + 1
          ldsm_notified_hash := g_hash_table_replace d.ldsm_notified_hash mi.mount.mount_path
            { mi with notify_time := o.time d.time_calls } }
        { mi with notify_time := o.time d.time_calls } mv ouv := by
  simp only [ldsm_maybe_warn_mounts_body, h, hA, hB]
  exact pair_of_flag _

theorem body_some_too_soon (o : Oracle) (mv ouv : Bool) (mi prev : LdsmMountInfo)
    (d : DIskSpace)
    (h : g_hash_table_lookup d.ldsm_notified_hash mi.mount.mount_path = some prev)
    (hA : Double.gt (Double.sub (free_space_ratio prev.buf) (free_space_ratio mi.buf))
      d.free_percent_notify_again = true)
    (hB : Double.gt (difftime (o.time d.time_calls) prev.notify_time)
      (min_notify_seconds d) = false) :
    ldsm_maybe_warn_mounts_body o mv ouv mi false d =
      (false, { d with
          time_calls := d.time_calls + 1
          ldsm_notified_hash := g_hash_table_replace d.ldsm_notified_hash mi.mount.mount_path
            { mi with notify_time := prev.notify_time } }) := by
  simp [ldsm_maybe_warn_mounts_body, h, hA, hB]

theorem body_some_small (o : Oracle) (mv ouv : Bool) (mi prev : LdsmMountInfo)
    (d : DIskSpace)
    (h : g_hash_table_lookup d.ldsm_notified_hash mi.mount.mount_path = some prev)
    (hA : Double.gt (Double.sub (free_space_ratio prev.buf) (free_space_ratio mi.buf))
      d.free_percent_notify_again = false) :
    ldsm_maybe_warn_mounts_body o mv ouv mi false d = (false, d) := by
  simp [ldsm_maybe_warn_mounts_body, h, hA]

/-! ## Lemmas on the loop of `ldsm_maybe_warn_mounts` -/

/-- One iteration either leaves the state alone, or replaces the entry of the mount without a
notification attempt, or replaces it and calls `ldsm_notify_for_mount`. -/
theorem body_cases (o : Oracle) (mv ouv : Bool) (mi : LdsmMountInfo) (done : Bool)
    (d : DIskSpace) :
    ldsm_maybe_warn_mounts_body o mv ouv mi done d = (done, d) ∨
    (∃ t, ldsm_maybe_warn_mounts_body o mv ouv mi done d =
      (false, { d with
        time_calls := d.time_calls + 1
        ldsm_notified_hash := g_hash_table_replace d.ldsm_notified_hash mi.mount.mount_path
          { mi with notify_time := t } })) ∨
    (done = false ∧ ldsm_maybe_warn_mounts_body o mv ouv mi done d =
      ldsm_notify_for_mount o
        { d with
          time_calls := d.time_calls + 1
          ldsm_notified_hash := g_hash_table_replace d.ldsm_notified_hash mi.mount.mount_path
            { mi with notify_time := o.time d.time_calls } }
        { mi with notify_time := o.time d.time_calls } mv ouv) := by
  cases done
  · cases h : g_hash_table_lookup d.ldsm_notified_hash mi.mount.mount_path with
    | none => exact Or.inr (Or.inr ⟨rfl, body_none o mv ouv mi d h⟩)
    | some prev =>
      cases hA : Double.gt (Double.sub (free_space_ratio prev.buf) (free_space_ratio mi.buf))
          d.free_percent_notify_again
      · exact Or.inl (body_some_small o mv ouv mi prev d h hA)
      · cases hB : Double.gt (difftime (o.time d.time_calls) prev.notify_time)
            (min_notify_seconds d)
        · exact Or.inr (Or.inl ⟨_, body_some_too_soon o mv ouv mi prev d h hA hB⟩)
        · exact Or.inr (Or.inr ⟨rfl, body_some_notify o mv ouv mi prev d h hA hB⟩)
  · exact Or.inl (body_done o mv ouv mi d)

theorem body_same_config (o : Oracle) (mv ouv : Bool) (mi : LdsmMountInfo) (done : Bool)
    (d : DIskSpace) : same_config d (ldsm_maybe_warn_mounts_body o mv ouv mi done d).2 := by
  rcases body_cases o mv ouv mi done d with h | ⟨t, h⟩ | ⟨_, h⟩
  · rw [h]; exact same_config_refl d
  · rw [h]; exact ⟨rfl, rfl, rfl, rfl, rfl⟩
  · rw [h]
    exact @same_config_trans d
      { d with
        time_calls := d.time_calls + 1
        ldsm_notified_hash := g_hash_table_replace d.ldsm_notified_hash mi.mount.mount_path
          { mi with notify_time := o.time d.time_calls } }
      _ ⟨rfl, rfl, rfl, rfl, rfl⟩ (notify_frame o _ _ mv ouv).2.2.2.2

theorem body_lookup_ne (o : Oracle) (mv ouv : Bool) (mi : LdsmMountInfo) (done : Bool)
    (d : DIskSpace) (p : String) (hne : mi.mount.mount_path ≠ p) :
    g_hash_table_lookup (ldsm_maybe_warn_mounts_body o mv ouv mi done d).2.ldsm_notified_hash p =
      g_hash_table_lookup d.ldsm_notified_hash p := by
  rcases body_cases o mv ouv mi done d with h | ⟨t, h⟩ | ⟨_, h⟩
  · rw [h]
  · rw [h]; exact lookup_replace_ne _ _ hne
  · rw [h, (notify_frame o _ _ mv ouv).1]; exact lookup_replace_ne _ _ hne

theorem loop_done (o : Oracle) (mv ouv : Bool) (l : List LdsmMountInfo) (d : DIskSpace) :
    ldsm_maybe_warn_mounts_loop o mv ouv l true d = d := by
  induction l with
  | nil => rfl
  | cons mi rest ih => simp [ldsm_maybe_warn_mounts_loop, body_done, ih]

theorem loop_same_config (o : Oracle) (mv ouv : Bool) (l : List LdsmMountInfo) :
    ∀ (done : Bool) (d : DIskSpace),
      same_config d (ldsm_maybe_warn_mounts_loop o mv ouv l done d) := by
  induction l with
  | nil => intro done d; exact same_config_refl d
  | cons mi rest ih =>
    intro done d
    exact same_config_trans (body_same_config o mv ouv mi done d) (ih _ _)

theorem loop_lookup_ne (o : Oracle) (mv ouv : Bool) (p : String) (l : List LdsmMountInfo) :
    ∀ (done : Bool) (d : DIskSpace), (∀ m ∈ l, m.mount.mount_path ≠ p) →
      g_hash_table_lookup (ldsm_maybe_warn_mounts_loop o mv ouv l done d).ldsm_notified_hash p =
        g_hash_table_lookup d.ldsm_notified_hash p := by
  induction l with
  | nil => intro done d _; rfl
  | cons mi rest ih =>
    intro done d hl
    simp only [ldsm_maybe_warn_mounts_loop]
    rw [ih _ _ (fun m hm => hl m (List.mem_cons_of_mem _ hm))]
    exact body_lookup_ne o mv ouv mi done d p (hl mi (List.mem_cons_self _ _))

theorem body_shown_of_dialog (o : Oracle) (mv ouv : Bool) (mi : LdsmMountInfo) (done : Bool)
    (d : DIskSpace) (hd : d.dialog = true) :
    (ldsm_maybe_warn_mounts_body o mv ouv mi done d).2.dialog = true ∧
    (ldsm_maybe_warn_mounts_body o mv ouv mi done d).2.shown = d.shown := by
  rcases body_cases o mv ouv mi done d with h | ⟨t, h⟩ | ⟨_, h⟩
  · rw [h]; exact ⟨hd, rfl⟩
  · rw [h]; exact ⟨hd, rfl⟩
  · rw [h]
    exact ⟨(notify_frame o _ _ mv ouv).2.2.2.1, notify_shown_of_dialog o _ _ mv ouv hd⟩

theorem body_shown (o : Oracle) (mv ouv : Bool) (mi : LdsmMountInfo) (done : Bool)
    (d : DIskSpace) :
    ((ldsm_maybe_warn_mounts_body o mv ouv mi done d).2.shown = d.shown) ∨
    ((ldsm_maybe_warn_mounts_body o mv ouv mi done d).2.dialog = true ∧
      ∃ x, (ldsm_maybe_warn_mounts_body o mv ouv mi done d).2.shown = d.shown ++ [x]) := by
  rcases body_cases o mv ouv mi done d with h | ⟨t, h⟩ | ⟨_, h⟩
  · rw [h]; exact Or.inl rfl
  · rw [h]; exact Or.inl rfl
  · rw [h]
    by_cases hd : d.dialog = true
    · exact Or.inl (notify_shown_of_dialog o _ _ mv ouv hd)
    · exact Or.inr ⟨(notify_frame o _ _ mv ouv).2.2.2.1,
        ⟨_, notify_shown_of_no_dialog o _ _ mv ouv (Bool.eq_false_iff.mpr hd)⟩⟩

theorem loop_shown_of_dialog (o : Oracle) (mv ouv : Bool) (l : List LdsmMountInfo) :
    ∀ (done : Bool) (d : DIskSpace), d.dialog = true →
      (ldsm_maybe_warn_mounts_loop o mv ouv l done d).shown = d.shown := by
  induction l with
  | nil => intro done d _; rfl
  | cons mi rest ih =>
    intro done d hd
    obtain ⟨h1, h2⟩ := body_shown_of_dialog o mv ouv mi done d hd
    simp only [ldsm_maybe_warn_mounts_loop]
    rw [ih _ _ h1, h2]

theorem loop_shown (o : Oracle) (mv ouv : Bool) (l : List LdsmMountInfo) :
    ∀ (done : Bool) (d : DIskSpace),
      (ldsm_maybe_warn_mounts_loop o mv ouv l done d).shown = d.shown ∨
      ∃ x, (ldsm_maybe_warn_mounts_loop o mv ouv l done d).shown = d.shown ++ [x] := by
  induction l with
  | nil => intro done d; exact Or.inl rfl
  | cons mi rest ih =>
    intro done d
    simp only [ldsm_maybe_warn_mounts_loop]
    rcases body_shown o mv ouv mi done d with h | ⟨hdlg, x, hx⟩
    · rw [← h]; exact ih _ _
    · rw [loop_shown_of_dialog o mv ouv rest _ _ hdlg]
      exact Or.inr ⟨x, hx⟩

theorem classify_frame (l : List LdsmMountInfo) :
    ∀ (acc : List LdsmMountInfo) (d : DIskSpace),
      same_config d (ldsm_check_all_mounts_classify l acc d).2 ∧
      (ldsm_check_all_mounts_classify l acc d).2.dialog = d.dialog ∧
      (ldsm_check_all_mounts_classify l acc d).2.shown = d.shown ∧
      (ldsm_check_all_mounts_classify l acc d).2.attempts = d.attempts ∧
      (ldsm_check_all_mounts_classify l acc d).2.time_calls = d.time_calls ∧
      (ldsm_check_all_mounts_classify l acc d).2.analyzed = d.analyzed := by
  induction l with
  | nil => intro acc d; exact ⟨same_config_refl d, rfl, rfl, rfl, rfl, rfl⟩
  | cons mi rest ih =>
    intro acc d
    unfold ldsm_check_all_mounts_classify
    by_cases hs : ldsm_mount_has_space d mi = true
    · simp only [hs, Bool.not_true, Bool.false_eq_true, if_false]
      obtain ⟨c, h1, h2, h3, h4, h5⟩ := ih acc
        { d with
          ldsm_notified_hash :=
            (g_hash_table_remove d.ldsm_notified_hash mi.mount.mount_path) }
      exact ⟨same_config_trans ⟨rfl, rfl, rfl, rfl, rfl⟩ c, h1, h2, h3, h4, h5⟩
    · simp only [hs, Bool.not_false, if_true]
      exact ih _ d

/-! ## Lemmas on the two loops of `ldsm_check_all_mounts` -/

/-- What the first loop guarantees of a mount it puts on `check_mounts`. -/
theorem collect_mem (src : MountSource) (d : DIskSpace) (mi : LdsmMountInfo)
    (l : List String) :
    ∀ acc : List LdsmMountInfo, mi ∈ ldsm_check_all_mounts_collect src d l acc →
      mi ∈ acc ∨
      ((∃ mp ∈ l, src.g_unix_mount_at mp = some mi.mount) ∧
        mi.mount.is_read_only = false ∧
        ldsm_mount_should_ignore d mi.mount = false ∧
        src.statvfs mi.mount.mount_path = some mi.buf ∧
        mi.buf.f_blocks ≠ 0 ∧
        mi.notify_time = 0) := by
  induction l with
  | nil => intro acc h; exact Or.inl h
  | cons mp rest ih =>
    intro acc h
    have lift : ∀ acc2, mi ∈ ldsm_check_all_mounts_collect src d rest acc2 →
        (mi ∈ acc2 → mi ∈ acc ∨
          ((∃ mp2 ∈ mp :: rest, src.g_unix_mount_at mp2 = some mi.mount) ∧
            mi.mount.is_read_only = false ∧
            ldsm_mount_should_ignore d mi.mount = false ∧
            src.statvfs mi.mount.mount_path = some mi.buf ∧
            mi.buf.f_blocks ≠ 0 ∧
            mi.notify_time = 0)) →
        mi ∈ acc ∨
          ((∃ mp2 ∈ mp :: rest, src.g_unix_mount_at mp2 = some mi.mount) ∧
            mi.mount.is_read_only = false ∧
            ldsm_mount_should_ignore d mi.mount = false ∧
            src.statvfs mi.mount.mount_path = some mi.buf ∧
            mi.buf.f_blocks ≠ 0 ∧
            mi.notify_time = 0) := by
      intro acc2 hmem hacc
      rcases ih acc2 hmem with h1 | ⟨⟨mp2, hmp2, hat⟩, rest2⟩
      · exact hacc h1
      · exact Or.inr ⟨⟨mp2, List.mem_cons_of_mem _ hmp2, hat⟩, rest2⟩
    unfold ldsm_check_all_mounts_collect at h
    cases hat : src.g_unix_mount_at mp with
    | none =>
      simp only [hat] at h
      exact lift acc h Or.inl
    | some mount =>
      simp only [hat] at h
      by_cases hro : mount.is_read_only = true
      · simp only [hro, if_true] at h
        exact lift acc h Or.inl
      · simp only [hro, if_false] at h
        by_cases hig : ldsm_mount_should_ignore d mount = true
        · simp only [hig, if_true] at h
          exact lift acc h Or.inl
        · simp only [hig, if_false] at h
          cases hst : src.statvfs mount.mount_path with
          | none =>
            simp only [hst] at h
            exact lift acc h Or.inl
          | some buf =>
            simp only [hst] at h
            by_cases hv : ldsm_mount_is_virtual { mount := mount, buf := buf, notify_time := 0 }
                = true
            · simp only [hv, if_true] at h
              exact lift acc h Or.inl
            · simp only [hv, if_false] at h
              refine lift _ h (fun hm => ?_)
              rcases List.mem_cons.mp hm with heq | hacc
              · subst heq
                refine Or.inr ⟨⟨mp, List.mem_cons_self _ _, hat⟩, ?_, ?_, hst, ?_, rfl⟩
                · simpa using hro
                · simpa using hig
                · intro hz
                  have hz2 : buf.f_blocks = 0 := hz
                  exact hv (by simp [ldsm_mount_is_virtual, hz2])
              · exact Or.inl hacc

theorem check_mounts_mem (src : MountSource) (d : DIskSpace) (mi : LdsmMountInfo)
    (h : mi ∈ check_mounts src d) :
    (∃ mp ∈ src.g_unix_mount_points_get, src.g_unix_mount_at mp = some mi.mount) ∧
    mi.mount.is_read_only = false ∧
    ldsm_mount_should_ignore d mi.mount = false ∧
    src.statvfs mi.mount.mount_path = some mi.buf ∧
    mi.buf.f_blocks ≠ 0 ∧
    mi.notify_time = 0 := by
  rcases collect_mem src d mi _ [] h with h1 | h2
  · exact absurd h1 (List.not_mem_nil _)
  · exact h2

/-- The second loop puts on `full_mounts` only mounts of the list without space. -/
theorem classify_mem (mi : LdsmMountInfo) (l : List LdsmMountInfo) :
    ∀ (acc : List LdsmMountInfo) (d : DIskSpace),
      mi ∈ (ldsm_check_all_mounts_classify l acc d).1 →
      mi ∈ acc ∨ (mi ∈ l ∧ ldsm_mount_has_space d mi = false) := by
  induction l with
  | nil => intro acc d h; exact Or.inl h
  | cons m rest ih =>
    intro acc d h
    unfold ldsm_check_all_mounts_classify at h
    by_cases hs : ldsm_mount_has_space d m = true
    · simp only [hs, Bool.not_true, Bool.false_eq_true, if_false] at h
      rcases ih _ _ h with h1 | ⟨h2, h3⟩
      · exact Or.inl h1
      · exact Or.inr ⟨List.mem_cons_of_mem _ h2, h3⟩
    · simp only [hs, Bool.not_false, if_true] at h
      rcases ih _ _ h with h1 | ⟨h2, h3⟩
      · rcases List.mem_cons.mp h1 with heq | hacc
        · subst heq
          exact Or.inr ⟨List.mem_cons_self _ _, by simpa using hs⟩
        · exact Or.inl hacc
      · exact Or.inr ⟨List.mem_cons_of_mem _ h2, h3⟩

theorem full_mounts_mem (src : MountSource) (d : DIskSpace) (mi : LdsmMountInfo)
    (h : mi ∈ full_mounts src d) :
    mi ∈ check_mounts src d ∧ ldsm_mount_has_space d mi = false := by
  rcases classify_mem mi _ [] d h with h1 | h2
  · exact absurd h1 (List.not_mem_nil _)
  · exact h2

/-! ## Lemmas on the notification attempts and the ignore rules -/

theorem body_attempts (o : Oracle) (mv ouv : Bool) (mi : LdsmMountInfo) (done : Bool)
    (d : DIskSpace) :
    (ldsm_maybe_warn_mounts_body o mv ouv mi done d).2.attempts = d.attempts ∨
    (ldsm_maybe_warn_mounts_body o mv ouv mi done d).2.attempts =
      d.attempts ++ [{ mi with notify_time := o.time d.time_calls }] := by
  rcases body_cases o mv ouv mi done d with h | ⟨t, h⟩ | ⟨_, h⟩
  · rw [h]; exact Or.inl rfl
  · rw [h]; exact Or.inl rfl
  · rw [h]; exact Or.inr (notify_frame o _ _ mv ouv).2.1

theorem loop_attempts (o : Oracle) (mv ouv : Bool) (l : List LdsmMountInfo) :
    ∀ (done : Bool) (d : DIskSpace),
      ∃ new, (ldsm_maybe_warn_mounts_loop o mv ouv l done d).attempts = d.attempts ++ new ∧
        ∀ x ∈ new, ∃ m ∈ l, x.mount = m.mount ∧ x.buf = m.buf := by
  induction l with
  | nil => intro done d; exact ⟨[], by simp [ldsm_maybe_warn_mounts_loop]⟩
  | cons mi rest ih =>
    intro done d
    simp only [ldsm_maybe_warn_mounts_loop]
    obtain ⟨new, hnew, hall⟩ := ih (ldsm_maybe_warn_mounts_body o mv ouv mi done d).1
      (ldsm_maybe_warn_mounts_body o mv ouv mi done d).2
    rcases body_attempts o mv ouv mi done d with h | h
    · refine ⟨new, by rw [hnew, h], fun x hx => ?_⟩
      obtain ⟨m, hm, hx2⟩ := hall x hx
      exact ⟨m, List.mem_cons_of_mem _ hm, hx2⟩
    · refine ⟨{ mi with notify_time := o.time d.time_calls } :: new, ?_, fun x hx => ?_⟩
      · rw [hnew, h]; simp
      · rcases List.mem_cons.mp hx with heq | hx1
        · subst heq
          exact ⟨mi, List.mem_cons_self _ _, rfl, rfl⟩
        · obtain ⟨m, hm, hx2⟩ := hall x hx1
          exact ⟨m, List.mem_cons_of_mem _ hm, hx2⟩

theorem is_in_iff (value : String) (set : List String) :
    is_in value set = true ↔ value ∈ set := by
  induction set with
  | nil => simp [is_in]
  | cons s rest ih =>
    by_cases hs : s = value
    · simp [is_in, hs]
    · have hs2 : ¬ value = s := fun h => hs h.symm
      simp [is_in, hs, hs2, ih]

theorem ldsm_mount_should_ignore_iff (d : DIskSpace) (m : GUnixMountEntry) :
    ldsm_mount_should_ignore d m = true ↔
      m.mount_path ∈ d.ignore_paths ∨ m.filesystem_type ∈ ignore_fs ∨
        m.device_path ∈ ignore_devices := by
  have hu : ldsm_mount_is_user_ignore d m.mount_path = true ↔ m.mount_path ∈ d.ignore_paths := by
    simp [ldsm_mount_is_user_ignore]
  rw [← hu, ← is_in_iff, ← is_in_iff]
  simp only [ldsm_mount_should_ignore]
  by_cases h1 : ldsm_mount_is_user_ignore d m.mount_path = true <;>
    by_cases h2 : is_in m.filesystem_type ignore_fs = true <;>
    by_cases h3 : is_in m.device_path ignore_devices = true <;> simp [h1, h2, h3]

/-! ## Lemmas on a whole check cycle -/

theorem has_space_congr {d1 d2 : DIskSpace} (h : same_config d1 d2) {m1 m2 : LdsmMountInfo}
    (hb : m1.buf = m2.buf) : ldsm_mount_has_space d2 m2 = ldsm_mount_has_space d1 m1 := by
  obtain ⟨h1, _, h3, _, _⟩ := h
  simp only [ldsm_mount_has_space, free_size_no_notify_bytes, h1, h3, hb]

theorem should_ignore_congr {d1 d2 : DIskSpace} (h : same_config d1 d2) (m : GUnixMountEntry) :
    ldsm_mount_should_ignore d2 m = ldsm_mount_should_ignore d1 m := by
  obtain ⟨_, _, _, _, h5⟩ := h
  simp only [ldsm_mount_should_ignore, ldsm_mount_is_user_ignore, h5]

theorem collect_congr (src : MountSource) {d1 d2 : DIskSpace} (h : same_config d1 d2)
    (l : List String) : ∀ acc : List LdsmMountInfo,
      ldsm_check_all_mounts_collect src d2 l acc = ldsm_check_all_mounts_collect src d1 l acc := by
  induction l with
  | nil => intro acc; rfl
  | cons mp rest ih =>
    intro acc
    unfold ldsm_check_all_mounts_collect
    simp only [should_ignore_congr h, ih]

theorem classify_fst_congr {d1 d2 : DIskSpace} (h : same_config d1 d2)
    (l : List LdsmMountInfo) : ∀ acc : List LdsmMountInfo,
      (ldsm_check_all_mounts_classify l acc d2).1 =
        (ldsm_check_all_mounts_classify l acc d1).1 := by
  induction l generalizing d1 d2 with
  | nil => intro acc; rfl
  | cons m rest ih =>
    intro acc
    unfold ldsm_check_all_mounts_classify
    rw [has_space_congr h (rfl : m.buf = m.buf)]
    by_cases hs : ldsm_mount_has_space d1 m = true
    · simp only [hs, Bool.not_true, Bool.false_eq_true, if_false]
      exact @ih
        { d1 with
          ldsm_notified_hash := g_hash_table_remove d1.ldsm_notified_hash m.mount.mount_path }
        { d2 with
          ldsm_notified_hash := g_hash_table_remove d2.ldsm_notified_hash m.mount.mount_path }
        h acc
    · simp only [hs, Bool.not_false, if_true]
      exact ih h _

theorem check_mounts_congr (src : MountSource) {d1 d2 : DIskSpace} (h : same_config d1 d2) :
    check_mounts src d2 = check_mounts src d1 :=
  collect_congr src h _ []

theorem full_mounts_congr (src : MountSource) {d1 d2 : DIskSpace} (h : same_config d1 d2) :
    full_mounts src d2 = full_mounts src d1 := by
  unfold full_mounts
  rw [check_mounts_congr src h, classify_fst_congr h]

/-- An entry that survives the second loop was there before, and no mount of the list with
its path has space. -/
theorem classify_lookup_some (p : String) (l : List LdsmMountInfo) :
    ∀ (acc : List LdsmMountInfo) (d : DIskSpace),
      g_hash_table_lookup (ldsm_check_all_mounts_classify l acc d).2.ldsm_notified_hash p ≠
        none →
      g_hash_table_lookup d.ldsm_notified_hash p ≠ none ∧
        ∀ m ∈ l, m.mount.mount_path = p → ldsm_mount_has_space d m = false := by
  induction l with
  | nil => intro acc d h; exact ⟨h, fun m hm => absurd hm (List.not_mem_nil _)⟩
  | cons m0 rest ih =>
    intro acc d h
    unfold ldsm_check_all_mounts_classify at h
    by_cases hs0 : ldsm_mount_has_space d m0 = true
    · simp only [hs0, Bool.not_true, Bool.false_eq_true, if_false] at h
      obtain ⟨h1, h2⟩ := ih _ _ h
      obtain ⟨hne, hlook⟩ := lookup_remove_some _ _ _ h1
      refine ⟨hlook, fun m hm hp => ?_⟩
      rcases List.mem_cons.mp hm with heq | hrest
      · subst heq; exact absurd hp hne
      · rw [← h2 m hrest hp]
        exact has_space_congr ⟨rfl, rfl, rfl, rfl, rfl⟩ rfl
    · simp only [hs0, Bool.not_false, if_true] at h
      obtain ⟨h1, h2⟩ := ih _ _ h
      refine ⟨h1, fun m hm hp => ?_⟩
      rcases List.mem_cons.mp hm with heq | hrest
      · subst heq; simpa using hs0
      · exact h2 m hrest hp

/-- The second loop removes the entry of a path that has a mount with space on the list. -/
theorem classify_lookup_removed (p : String) (l : List LdsmMountInfo)
    (acc : List LdsmMountInfo) (d : DIskSpace)
    (h : ∃ m ∈ l, m.mount.mount_path = p ∧ ldsm_mount_has_space d m = true) :
    g_hash_table_lookup (ldsm_check_all_mounts_classify l acc d).2.ldsm_notified_hash p =
      none := by
  by_contra hne
  obtain ⟨m, hm, hp, hs⟩ := h
  have := (classify_lookup_some p l acc d hne).2 m hm hp
  rw [hs] at this
  exact Bool.noConfusion this

/-- The second loop keeps the entry of a path none of whose mounts on the list has space. -/
theorem classify_lookup_kept (p : String) (l : List LdsmMountInfo) :
    ∀ (acc : List LdsmMountInfo) (d : DIskSpace),
      (∀ m ∈ l, m.mount.mount_path = p → ldsm_mount_has_space d m = false) →
      g_hash_table_lookup (ldsm_check_all_mounts_classify l acc d).2.ldsm_notified_hash p =
        g_hash_table_lookup d.ldsm_notified_hash p := by
  induction l with
  | nil => intro acc d _; rfl
  | cons m0 rest ih =>
    intro acc d h
    unfold ldsm_check_all_mounts_classify
    by_cases hs0 : ldsm_mount_has_space d m0 = true
    · simp only [hs0, Bool.not_true, Bool.false_eq_true, if_false]
      have hne : m0.mount.mount_path ≠ p := by
        intro hp
        have := h m0 (List.mem_cons_self _ _) hp
        rw [hs0] at this
        exact Bool.noConfusion this
      rw [ih _ _ (fun m hm hp => by
        rw [← h m (List.mem_cons_of_mem _ hm) hp]
        exact has_space_congr ⟨rfl, rfl, rfl, rfl, rfl⟩ rfl)]
      exact lookup_remove_ne _ hne
    · simp only [hs0, Bool.not_false, if_true]
      exact ih _ _ (fun m hm hp => h m (List.mem_cons_of_mem _ hm) hp)

theorem check_all_mounts_eq (o : Oracle) (src : MountSource) (d : DIskSpace) :
    ldsm_check_all_mounts o src d =
      ldsm_maybe_warn_mounts_loop o (decide ((check_mounts src d).length > 1))
        (decide ((check_mounts src d).length > (full_mounts src d).length))
        (full_mounts src d) false
        (ldsm_check_all_mounts_classify (check_mounts src d) [] d).2 := rfl

theorem check_same_config (o : Oracle) (src : MountSource) (d : DIskSpace) :
    same_config d (ldsm_check_all_mounts o src d) :=
  same_config_trans (classify_frame (check_mounts src d) [] d).1 (loop_same_config o _ _ _ _ _)

theorem run_checks_same_config (o : Oracle) (l : List MountSource) :
    ∀ d : DIskSpace, same_config d (run_checks o l d) := by
  induction l with
  | nil => intro d; exact same_config_refl d
  | cons src rest ih =>
    intro d
    exact same_config_trans (check_same_config o src d) (ih _)

theorem classified_low_iff (src : MountSource) (d : DIskSpace) (p : String) :
    classified_low src d p = true ↔ ∃ m ∈ full_mounts src d, m.mount.mount_path = p := by
  simp [classified_low]

theorem classified_sufficient_iff (src : MountSource) (d : DIskSpace) (p : String) :
    classified_sufficient src d p = true ↔
      ∃ m ∈ check_mounts src d, m.mount.mount_path = p ∧ ldsm_mount_has_space d m = true := by
  simp [classified_sufficient]

/-- Within one check a path is not classified both sufficient and low: the classification
depends on `statvfs` of the path only. -/
theorem not_low_of_sufficient (src : MountSource) (d : DIskSpace) (p : String)
    (h : classified_sufficient src d p = true) : classified_low src d p = false := by
  obtain ⟨m0, hm0, hp0, hs0⟩ := (classified_sufficient_iff src d p).mp h
  cases hl : classified_low src d p
  · rfl
  · obtain ⟨m, hm, hp⟩ := (classified_low_iff src d p).mp hl
    obtain ⟨hmc, hsm⟩ := full_mounts_mem src d m hm
    have e1 := (check_mounts_mem src d m hmc).2.2.2.1
    have e0 := (check_mounts_mem src d m0 hm0).2.2.2.1
    rw [hp] at e1
    rw [hp0, e1] at e0
    have hb : m.buf = m0.buf := Option.some.inj e0
    rw [has_space_congr (same_config_refl d) hb, hsm] at hs0
    exact Bool.noConfusion hs0

/-- After a check, an entry exists only for a path that is low in this check, or that had an
entry before and is not classified sufficient in this check. -/
theorem check_lookup_some (o : Oracle) (src : MountSource) (d : DIskSpace) (p : String)
    (h : g_hash_table_lookup (ldsm_check_all_mounts o src d).ldsm_notified_hash p ≠ none) :
    classified_low src d p = true ∨
      (classified_sufficient src d p = false ∧
        g_hash_table_lookup d.ldsm_notified_hash p ≠ none) := by
  cases hl : classified_low src d p
  · right
    have hno : ∀ m ∈ full_mounts src d, m.mount.mount_path ≠ p := by
      intro m hm hp
      have := (classified_low_iff src d p).mpr ⟨m, hm, hp⟩
      rw [hl] at this
      exact Bool.noConfusion this
    rw [check_all_mounts_eq, loop_lookup_ne o _ _ p _ false _ hno] at h
    obtain ⟨h1, h2⟩ := classify_lookup_some p _ _ _ h
    refine ⟨?_, h1⟩
    cases hs : classified_sufficient src d p
    · rfl
    · obtain ⟨m, hm, hp, hsp⟩ := (classified_sufficient_iff src d p).mp hs
      rw [h2 m hm hp] at hsp
      exact Bool.noConfusion hsp
  · exact Or.inl rfl

/-- A check removes the entry of a path classified sufficient. -/
theorem check_lookup_of_sufficient (o : Oracle) (src : MountSource) (d : DIskSpace)
    (p : String) (h : classified_sufficient src d p = true) :
    g_hash_table_lookup (ldsm_check_all_mounts o src d).ldsm_notified_hash p = none := by
  by_contra hne
  rcases check_lookup_some o src d p hne with h1 | ⟨h2, _⟩
  · rw [not_low_of_sufficient src d p h] at h1
    exact Bool.noConfusion h1
  · rw [h] at h2
    exact Bool.noConfusion h2

theorem classified_low_congr (src : MountSource) {d1 d2 : DIskSpace} (h : same_config d1 d2)
    (p : String) : classified_low src d2 p = classified_low src d1 p := by
  unfold classified_low
  rw [full_mounts_congr src h]

/-- Checks in which a path is not low do not create an entry for it. -/
theorem run_checks_lookup_none (o : Oracle) (p : String) (d0 : DIskSpace)
    (l : List MountSource) :
    ∀ d : DIskSpace, same_config d0 d → (∀ src ∈ l, classified_low src d0 p = false) →
      g_hash_table_lookup d.ldsm_notified_hash p = none →
      g_hash_table_lookup (run_checks o l d).ldsm_notified_hash p = none := by
  induction l with
  | nil => intro d _ _ h; exact h
  | cons src rest ih =>
    intro d hc hl h
    refine ih _ (same_config_trans hc (check_same_config o src d))
      (fun s hs => hl s (List.mem_cons_of_mem _ hs)) ?_
    by_contra hne
    rcases check_lookup_some o src d p hne with h1 | ⟨_, h2⟩
    · rw [classified_low_congr src hc p, hl src (List.mem_cons_self _ _)] at h1
      exact Bool.noConfusion h1
    · exact h2 h

/-- A check whose first low mount has no entry: the entry is created with the statistics of
the mount and the current time, and the first notification attempt is for this mount. -/
theorem check_first_low_fresh (o : Oracle) (src : MountSource) (d : DIskSpace)
    (mi : LdsmMountInfo) (rest : List LdsmMountInfo)
    (hfull : full_mounts src d = mi :: rest)
    (hnone : g_hash_table_lookup d.ldsm_notified_hash mi.mount.mount_path = none)
    (hrest : ∀ x ∈ rest, x.mount.mount_path ≠ mi.mount.mount_path) :
    (∃ more, (ldsm_check_all_mounts o src d).attempts =
      d.attempts ++ { mi with notify_time := o.time d.time_calls } :: more) ∧
    g_hash_table_lookup (ldsm_check_all_mounts o src d).ldsm_notified_hash
      mi.mount.mount_path = some { mi with notify_time := o.time d.time_calls } := by
  have hfr := classify_frame (check_mounts src d) [] d
  have hnone2 : g_hash_table_lookup
      (ldsm_check_all_mounts_classify (check_mounts src d) [] d).2.ldsm_notified_hash
      mi.mount.mount_path = none := by
    by_contra hne
    exact (classify_lookup_some _ _ _ _ hne).1 hnone
  rw [check_all_mounts_eq, hfull]
  simp only [ldsm_maybe_warn_mounts_loop]
  rw [body_none o _ _ mi _ hnone2]
  constructor
  · obtain ⟨new, hnew, _⟩ := loop_attempts o
      (decide ((check_mounts src d).length > 1))
      (decide ((check_mounts src d).length > (mi :: rest).length)) rest
      (ldsm_notify_for_mount o _ _ _ _).1 (ldsm_notify_for_mount o _ _ _ _).2
    refine ⟨new, ?_⟩
    rw [hnew, (notify_frame o _ _ _ _).2.1]
    simp [hfr.2.2.2.1, hfr.2.2.2.2.1]
  · rw [loop_lookup_ne o _ _ _ rest _ _ hrest, (notify_frame o _ _ _ _).1]
    simp [lookup_replace_self, hfr.2.2.2.2.1]

theorem notify_handled_of_dismissed (o : Oracle) (d : DIskSpace) (m : LdsmMountInfo)
    (mv ouv : Bool) (hd : d.dialog = false)
    (hr : o.exec d.shown.length = Response.GTK_RESPONSE_NONE ∨
      o.exec d.shown.length = Response.GTK_RESPONSE_DELETE_EVENT) :
    (ldsm_notify_for_mount o d m mv ouv).1 = true := by
  unfold ldsm_notify_for_mount
  simp only [hd]
  rcases hr with h | h <;> simp [h]

/-! ## Lemmas on the order of the two lists of `ldsm_check_all_mounts` -/

theorem collect_step (src : MountSource) (d : DIskSpace) (mp : String) (l : List String)
    (acc : List LdsmMountInfo) :
    ldsm_check_all_mounts_collect src d (mp :: l) acc =
      ldsm_check_all_mounts_collect src d l
        (match check_mounts_candidate src d mp with
          | none => acc
          | some mi => mi :: acc) := by
  simp only [ldsm_check_all_mounts_collect, check_mounts_candidate]
  cases src.g_unix_mount_at mp with
  | none => rfl
  | some mount =>
    by_cases hro : mount.is_read_only = true
    · simp [hro]
    · by_cases hig : ldsm_mount_should_ignore d mount = true
      · simp [hro, hig]
      · cases hst : src.statvfs mount.mount_path with
        | none => simp [hro, hig, hst]
        | some buf =>
          by_cases hv : ldsm_mount_is_virtual { mount := mount, buf := buf, notify_time := 0 }
              = true
          · simp [hro, hig, hst, hv]
          · simp [hro, hig, hst, hv]

theorem collect_eq (src : MountSource) (d : DIskSpace) (l : List String) :
    ∀ acc : List LdsmMountInfo,
      ldsm_check_all_mounts_collect src d l acc =
        (l.filterMap (check_mounts_candidate src d)).reverse ++ acc := by
  induction l with
  | nil => intro acc; rfl
  | cons mp rest ih =>
    intro acc
    rw [collect_step, ih]
    cases h : check_mounts_candidate src d mp with
    | none => simp [List.filterMap_cons, h]
    | some mi => simp [List.filterMap_cons, h]

theorem classify_fst_eq (d : DIskSpace) (l : List LdsmMountInfo) :
    ∀ (acc : List LdsmMountInfo) (d2 : DIskSpace), same_config d d2 →
      (ldsm_check_all_mounts_classify l acc d2).1 =
        (l.filter (fun m => !ldsm_mount_has_space d m)).reverse ++ acc := by
  induction l with
  | nil => intro acc d2 _; rfl
  | cons m rest ih =>
    intro acc d2 hc
    unfold ldsm_check_all_mounts_classify
    rw [has_space_congr hc (rfl : m.buf = m.buf)]
    by_cases hs : ldsm_mount_has_space d m = true
    · simp only [hs, Bool.not_true, Bool.false_eq_true, if_false]
      have hrest := ih acc
        { d2 with
          ldsm_notified_hash := g_hash_table_remove d2.ldsm_notified_hash m.mount.mount_path }
        (same_config_trans hc ⟨rfl, rfl, rfl, rfl, rfl⟩)
      rw [hrest]
      simp [List.filter_cons, hs]
    · simp only [hs, Bool.not_false, if_true]
      rw [ih (m :: acc) d2 hc]
      simp [List.filter_cons, hs]

theorem head_filterMap_eq_findSome {α β : Type} (f : α → Option β) (l : List α) :
    (l.filterMap f).head? = l.findSome? f := by
  induction l with
  | nil => rfl
  | cons a rest ih =>
    cases h : f a with
    | none => simp [List.filterMap_cons, List.findSome?_cons, h, ih]
    | some b => simp [List.filterMap_cons, List.findSome?_cons, h]

/-! ## Lemmas on the purge of the table -/

theorem not_in_mounts_iff (key : String) (value : LdsmMountInfo)
    (mounts : List GUnixMountEntry) :
    ldsm_is_hash_item_not_in_mounts key value mounts = true ↔
      ∀ m ∈ mounts, m.mount_path ≠ key := by
  induction mounts with
  | nil => simp [ldsm_is_hash_item_not_in_mounts]
  | cons m rest ih =>
    by_cases h : m.mount_path = key
    · simp [ldsm_is_hash_item_not_in_mounts, h]
    · simp [ldsm_is_hash_item_not_in_mounts, h, ih]

theorem foreach_remove_mem (h : List (String × LdsmMountInfo))
    (func : String → LdsmMountInfo → Bool) (e : String × LdsmMountInfo) :
    e ∈ g_hash_table_foreach_remove h func ↔ e ∈ h ∧ func e.1 e.2 = false := by
  simp [g_hash_table_foreach_remove, List.mem_filter]

theorem foreach_remove_lookup_kept (h : List (String × LdsmMountInfo))
    (func : String → LdsmMountInfo → Bool) (k : String)
    (hk : ∀ v, func k v = false) :
    g_hash_table_lookup (g_hash_table_foreach_remove h func) k = g_hash_table_lookup h k := by
  induction h with
  | nil => rfl
  | cons e rest ih =>
    obtain ⟨k0, v0⟩ := e
    unfold g_hash_table_foreach_remove at ih ⊢
    by_cases h0 : k0 = k
    · subst h0
      simp [List.filter, hk v0, g_hash_table_lookup]
    · cases hf : func k0 v0
      · simp [List.filter, hf, g_hash_table_lookup, h0, ih]
      · simp [List.filter, hf, g_hash_table_lookup, h0, ih]

theorem foreach_remove_lookup_removed (h : List (String × LdsmMountInfo))
    (func : String → LdsmMountInfo → Bool) (k : String)
    (hk : ∀ v, func k v = true) :
    g_hash_table_lookup (g_hash_table_foreach_remove h func) k = none := by
  induction h with
  | nil => rfl
  | cons e rest ih =>
    obtain ⟨k0, v0⟩ := e
    unfold g_hash_table_foreach_remove at ih ⊢
    by_cases h0 : k0 = k
    · subst h0
      simp [List.filter, hk v0, ih]
    · cases hf : func k0 v0
      · simp [List.filter, hf, g_hash_table_lookup, h0, ih]
      · simp [List.filter, hf, ih]

/-! ## Space evaluation (C1) -/

/-- C1, the claim as stated fails: for 450359962737049 of 9007199254740979 blocks the exact
quotient is greater than `free_percent_notify` (the `double` 0.05) and the byte product is
below the limit, yet `ldsm_mount_has_space` returns false, because the quotient computed in
`double`s is equal to the threshold. -/
theorem C1_exact_ratio_above_threshold_yet_low :
    0 < mountHuge.buf.f_blocks ∧
    diskBigLimit.free_percent_notify =
      Double.finite (3602879701896397 / 72057594037927936) ∧
    (mountHuge.buf.f_bavail : ℚ) / (mountHuge.buf.f_blocks : ℚ) >
      3602879701896397 / 72057594037927936 ∧
    (mountHuge.buf.f_bavail : ℚ) / (mountHuge.buf.f_blocks : ℚ) > 5 / 100 ∧
    Double.div (Double.ofNat mountHuge.buf.f_bavail) (Double.ofNat mountHuge.buf.f_blocks) =
      Double.finite (3602879701896397 / 72057594037927936) ∧
    ¬ toGint64 ((mountHuge.buf.f_frsize : Int) * (mountHuge.buf.f_bavail : Int)) >
      diskBigLimit.free_size_gb_no_notify * 1024 * 1024 * 1024 ∧
    ldsm_mount_has_space diskBigLimit mountHuge = false := by
  decide!

/-- C1, amended: for a mount with `totalBlocks > 0`, `ldsm_mount_has_space` returns true
exactly when the quotient `(double) availableBlocks / (double) totalBlocks`, computed in
IEEE doubles, is greater than `free_percent_notify`, or the byte product
`fragmentSize * availableBlocks` exceeds `free_size_gb_no_notify * 1024 * 1024 * 1024`, both
products taken as 64-bit signed integers; in every other case it returns false.  For a
`free_size_gb_no_notify` that is a 32-bit C integer the second product is the exact one. -/
theorem C1_ldsm_mount_has_space_iff (d : DIskSpace) (mount : LdsmMountInfo)
    (_hblocks : 0 < mount.buf.f_blocks) :
    (ldsm_mount_has_space d mount = true ↔
      (Double.gt (Double.div (Double.ofNat mount.buf.f_bavail) (Double.ofNat mount.buf.f_blocks))
          d.free_percent_notify = true ∨
        toGint64 ((mount.buf.f_frsize : Int) * (mount.buf.f_bavail : Int)) >
          toGint64 (d.free_size_gb_no_notify * 1024 * 1024 * 1024))) ∧
    (¬ (Double.gt (Double.div (Double.ofNat mount.buf.f_bavail) (Double.ofNat mount.buf.f_blocks))
          d.free_percent_notify = true ∨
        toGint64 ((mount.buf.f_frsize : Int) * (mount.buf.f_bavail : Int)) >
          toGint64 (d.free_size_gb_no_notify * 1024 * 1024 * 1024)) →
      ldsm_mount_has_space d mount = false) ∧
    (-2 ^ 31 ≤ d.free_size_gb_no_notify → d.free_size_gb_no_notify < 2 ^ 32 →
      toGint64 (d.free_size_gb_no_notify * 1024 * 1024 * 1024) =
        d.free_size_gb_no_notify * 1024 * 1024 * 1024) := by
  have key : ldsm_mount_has_space d mount = true ↔
      (Double.gt (Double.div (Double.ofNat mount.buf.f_bavail) (Double.ofNat mount.buf.f_blocks))
          d.free_percent_notify = true ∨
        toGint64 ((mount.buf.f_frsize : Int) * (mount.buf.f_bavail : Int)) >
          toGint64 (d.free_size_gb_no_notify * 1024 * 1024 * 1024)) := by
    unfold ldsm_mount_has_space
    rw [free_space_bytes_eq, free_size_no_notify_bytes_wrap d]
    simp only [free_space_ratio]
    by_cases h1 : Double.gt (Double.div (Double.ofNat mount.buf.f_bavail)
        (Double.ofNat mount.buf.f_blocks)) d.free_percent_notify = true
    · simp [h1]
    · by_cases h2 : toGint64 ((mount.buf.f_frsize : Int) * (mount.buf.f_bavail : Int)) >
          toGint64 (d.free_size_gb_no_notify * 1024 * 1024 * 1024)
      · simp [h1, h2]
      · simp [h1, h2]
  refine ⟨key, fun hn => ?_, fun hlo hhi => ?_⟩
  · cases h : ldsm_mount_has_space d mount
    · rfl
    · exact absurd (key.mp h) hn
  · unfold toGint64; omega

/-- C1 (amended) at Example A: with the default thresholds the mount with 40 of 1000 blocks
free is low. -/
theorem C1_ldsm_mount_has_space_iff_witness :
    ldsm_mount_has_space DiskSpaceNew mountA40 = false :=
  (C1_ldsm_mount_has_space_iff DiskSpaceNew mountA40 (by decide)).2.1 (by decide!)

/-! ## Re-notification gates (C2) -/

/-- C2, the claim as stated fails: `/data` has an entry from time 0 with 40 of 1000 blocks
free and now, at time 700, has 30 of 1000 blocks free.  The drop is exactly 1/100, which is
not greater than `free_percent_notify_again` (the `double` 0.01, a little above 1/100), yet a
notification is attempted: in `double`s the difference of the quotients is
0.010000000000000002. -/
theorem C2_renotified_at_exact_drop :
    g_hash_table_lookup diskNotified.ldsm_notified_hash mountA30.mount.mount_path =
      some mountA40 ∧
    diskNotified.free_percent_notify_again =
      Double.finite (5764607523034235 / 576460752303423488) ∧
    ¬ ((mountA40.buf.f_bavail : ℚ) / (mountA40.buf.f_blocks : ℚ) -
        (mountA30.buf.f_bavail : ℚ) / (mountA30.buf.f_blocks : ℚ) >
      5764607523034235 / 576460752303423488) ∧
    ¬ ((mountA40.buf.f_bavail : ℚ) / (mountA40.buf.f_blocks : ℚ) -
        (mountA30.buf.f_bavail : ℚ) / (mountA30.buf.f_blocks : ℚ) > 1 / 100) ∧
    Double.sub (Double.div (Double.ofNat mountA40.buf.f_bavail)
        (Double.ofNat mountA40.buf.f_blocks))
      (Double.div (Double.ofNat mountA30.buf.f_bavail) (Double.ofNat mountA30.buf.f_blocks)) =
      Double.finite (1441151880758559 / 144115188075855872) ∧
    (ldsm_maybe_warn_mounts_body oracleDismiss false false mountA30 false
      diskNotified).2.attempts ≠ diskNotified.attempts := by
  decide!

/-- C2, amended: for a low mount that already has a notification entry `prev`, one iteration
of the loop of `ldsm_maybe_warn_mounts` calls `ldsm_notify_for_mount` only if both
`priorRatio - currentRatio > free_percent_notify_again`, the two quotients and their
difference computed in IEEE doubles, and `now - prev.notify_time > min_notify_period * 60`,
the product computed as a 32-bit `int`, hold; if either fails, no notification is attempted
for that mount.  Here `now` is the value `time (NULL)` returns in this iteration, and the
32-bit product is the exact product whenever that fits 32 bits. -/
theorem C2_renotify_needs_drop_and_time (o : Oracle) (mv ouv : Bool)
    (mi prev : LdsmMountInfo) (done : Bool) (d : DIskSpace)
    (hentry : g_hash_table_lookup d.ldsm_notified_hash mi.mount.mount_path = some prev) :
    ((ldsm_maybe_warn_mounts_body o mv ouv mi done d).2.attempts ≠ d.attempts →
      (Double.gt
          (Double.sub
            (Double.div (Double.ofNat prev.buf.f_bavail) (Double.ofNat prev.buf.f_blocks))
            (Double.div (Double.ofNat mi.buf.f_bavail) (Double.ofNat mi.buf.f_blocks)))
          d.free_percent_notify_again = true ∧
        o.time d.time_calls - prev.notify_time > toInt32 (d.min_notify_period * 60))) ∧
    (¬ (Double.gt
          (Double.sub
            (Double.div (Double.ofNat prev.buf.f_bavail) (Double.ofNat prev.buf.f_blocks))
            (Double.div (Double.ofNat mi.buf.f_bavail) (Double.ofNat mi.buf.f_blocks)))
          d.free_percent_notify_again = true ∧
        o.time d.time_calls - prev.notify_time > toInt32 (d.min_notify_period * 60)) →
      (ldsm_maybe_warn_mounts_body o mv ouv mi done d).2.attempts = d.attempts) ∧
    (-2 ^ 31 ≤ d.min_notify_period * 60 → d.min_notify_period * 60 < 2 ^ 31 →
      toInt32 (d.min_notify_period * 60) = d.min_notify_period * 60) := by
  have key : ¬ (Double.gt
          (Double.sub
            (Double.div (Double.ofNat prev.buf.f_bavail) (Double.ofNat prev.buf.f_blocks))
            (Double.div (Double.ofNat mi.buf.f_bavail) (Double.ofNat mi.buf.f_blocks)))
          d.free_percent_notify_again = true ∧
        o.time d.time_calls - prev.notify_time > toInt32 (d.min_notify_period * 60)) →
      (ldsm_maybe_warn_mounts_body o mv ouv mi done d).2.attempts = d.attempts := by
    intro hn
    cases done
    · cases hA : Double.gt (Double.sub (free_space_ratio prev.buf) (free_space_ratio mi.buf))
          d.free_percent_notify_again
      · rw [body_some_small o mv ouv mi prev d hentry hA]
      · cases hB : Double.gt (difftime (o.time d.time_calls) prev.notify_time)
            (min_notify_seconds d)
        · rw [body_some_too_soon o mv ouv mi prev d hentry hA hB]
        · exact absurd ⟨hA, (time_gate_iff d _ _).mp hB⟩ hn
    · rw [body_done]
  exact ⟨fun hne => by_contra fun hn => hne (key hn), key,
    fun hlo hhi => toInt32_of_range _ hlo hhi⟩

/-- C2 (amended) at Example A: `/data` was entered at time 0 with 40 blocks free and has 10
blocks free at time 700; a notification is attempted, so both gates hold. -/
theorem C2_renotify_needs_drop_and_time_witness :
    (Double.gt
        (Double.sub
          (Double.div (Double.ofNat mountA40.buf.f_bavail) (Double.ofNat mountA40.buf.f_blocks))
          (Double.div (Double.ofNat mountA10.buf.f_bavail) (Double.ofNat mountA10.buf.f_blocks)))
        diskNotified.free_percent_notify_again = true ∧
      oracleCancel.time diskNotified.time_calls - mountA40.notify_time >
        toInt32 (diskNotified.min_notify_period * 60)) :=
  (C2_renotify_needs_drop_and_time oracleCancel false false mountA10 mountA40 false
    diskNotified (by decide)).1 (by decide!)

/-! ## At most one dialog per cycle (C3) -/

/-- C3: for every list of low mounts, every prior state and every sequence of notifier
responses, one run of `ldsm_maybe_warn_mounts`, and one run of `ldsm_check_all_mounts`,
executes at most one dialog: the log of dialogs is unchanged or one dialog longer. -/
theorem C3_at_most_one_dialog_per_cycle (o : Oracle) (d : DIskSpace) :
    (∀ (mounts : List LdsmMountInfo) (mv ouv : Bool),
      (ldsm_maybe_warn_mounts o d mounts mv ouv).shown = d.shown ∨
      ∃ x, (ldsm_maybe_warn_mounts o d mounts mv ouv).shown = d.shown ++ [x]) ∧
    (∀ src : MountSource,
      (ldsm_check_all_mounts o src d).shown = d.shown ∨
      ∃ x, (ldsm_check_all_mounts o src d).shown = d.shown ++ [x]) := by
  refine ⟨fun mounts mv ouv => loop_shown o mv ouv mounts false d, fun src => ?_⟩
  have hc := (classify_frame (check_mounts src d) [] d).2.2.1
  unfold ldsm_check_all_mounts ldsm_maybe_warn_mounts
  simp only
  rw [← hc]
  exact loop_shown o _ _ _ false _

/-! ## Recovery resets the hysteresis (C4) -/

/-- C4: a check cycle in which the mount path `p` is classified sufficient leaves no entry
for `p` (whatever entry it had); the entry stays absent through any further cycles in which
`p` is not low; and when in a later cycle `p` is low again and is the first low mount
processed, `ldsm_notify_for_mount` is called for it at once, whatever the ratios and times,
and a new entry is stored with the current statistics and `notify_time = now`.  The
classification of a path depends on the mount table and the configuration only, which no
check changes, so it is stated with the initial state `d`; no other low mount of the last
cycle has the path `p`. -/
theorem C4_recovery_then_fresh_notification (o : Oracle) (src1 : MountSource)
    (mids : List MountSource) (src2 : MountSource) (d : DIskSpace) (p : String)
    (mi : LdsmMountInfo) (rest : List LdsmMountInfo)
    (hsuff : classified_sufficient src1 d p = true)
    (hmids : ∀ src ∈ mids, classified_low src d p = false)
    (hfull : full_mounts src2 d = mi :: rest)
    (hp : mi.mount.mount_path = p)
    (hrest : ∀ x ∈ rest, x.mount.mount_path ≠ p) :
    g_hash_table_lookup (ldsm_check_all_mounts o src1 d).ldsm_notified_hash p = none ∧
    g_hash_table_lookup
      (run_checks o mids (ldsm_check_all_mounts o src1 d)).ldsm_notified_hash p = none ∧
    (∃ more,
      (ldsm_check_all_mounts o src2
        (run_checks o mids (ldsm_check_all_mounts o src1 d))).attempts =
      (run_checks o mids (ldsm_check_all_mounts o src1 d)).attempts ++
        { mi with
          notify_time :=
            o.time (run_checks o mids (ldsm_check_all_mounts o src1 d)).time_calls } :: more) ∧
    g_hash_table_lookup
      (ldsm_check_all_mounts o src2
        (run_checks o mids (ldsm_check_all_mounts o src1 d))).ldsm_notified_hash p =
      some { mi with
        notify_time :=
          o.time (run_checks o mids (ldsm_check_all_mounts o src1 d)).time_calls } := by
  have h1 := check_lookup_of_sufficient o src1 d p hsuff
  have hc1 := check_same_config o src1 d
  have h2 := run_checks_lookup_none o p d mids _ hc1 hmids h1
  have hc2 := same_config_trans hc1 (run_checks_same_config o mids _)
  have hfull2 := (full_mounts_congr src2 hc2).trans hfull
  subst hp
  exact ⟨h1, h2, check_first_low_fresh o src2 _ mi rest hfull2 h2 hrest⟩

/-- C4 at Example A: `/data` has an entry, recovers to 500 free blocks in one check and is low
again in the next, where the entry is created anew with the time of that check. -/
theorem C4_recovery_then_fresh_notification_witness :
    g_hash_table_lookup
      (ldsm_check_all_mounts oracleCancel srcTwoLow
        (run_checks oracleCancel []
          (ldsm_check_all_mounts oracleCancel srcRecovered diskNotified))).ldsm_notified_hash
      "/data" =
      some { mountA40 with
        notify_time :=
          oracleCancel.time (run_checks oracleCancel []
            (ldsm_check_all_mounts oracleCancel srcRecovered diskNotified)).time_calls } :=
  (C4_recovery_then_fresh_notification oracleCancel srcRecovered [] srcTwoLow diskNotified
    "/data" mountA40 [mountB30] (by decide!) (fun _ h => absurd h (List.not_mem_nil _))
    (by decide!) rfl (by decide)).2.2.2

/-! ## Ignored mounts (C5) -/

/-- C5: a live mount that is read-only, or whose path is an exact member of `ignore_paths`,
or whose filesystem type is in `ignore_fs`, or whose device is in `ignore_devices`, or whose
total block count is zero, is never put on `check_mounts` by `ldsm_check_all_mounts`: it is
not on `check_mounts` (so it is classified neither low nor sufficient and is not counted in
`number_of_mounts`, the length of that list), not on `full_mounts`, and no call of
`ldsm_notify_for_mount` made by the check is for it.  The types `tmpfs`, `proc`, `nfs`,
`nfs4`, `cifs`, `smbfs`, `autofs`, `sysfs` and `devfs` are in `ignore_fs`. -/
theorem C5_ignored_mounts_never_checked (o : Oracle) (src : MountSource) (d : DIskSpace)
    (m : GUnixMountEntry)
    (h : m.is_read_only = true ∨ m.mount_path ∈ d.ignore_paths ∨
      m.filesystem_type ∈ ignore_fs ∨ m.device_path ∈ ignore_devices ∨
      ∃ buf, src.statvfs m.mount_path = some buf ∧ buf.f_blocks = 0) :
    (∀ mi ∈ check_mounts src d, mi.mount ≠ m) ∧
    (∀ mi ∈ full_mounts src d, mi.mount ≠ m) ∧
    List.countP (fun mi => decide (mi.mount = m)) (check_mounts src d) = 0 ∧
    (∃ new, (ldsm_check_all_mounts o src d).attempts = d.attempts ++ new ∧
      ∀ mi ∈ new, mi.mount ≠ m) ∧
    (∀ fs ∈ ["tmpfs", "proc", "nfs", "nfs4", "cifs", "smbfs", "autofs", "sysfs", "devfs"],
      fs ∈ ignore_fs) := by
  have hcheck : ∀ mi ∈ check_mounts src d, mi.mount ≠ m := by
    intro mi hmi heq
    obtain ⟨_, hro, hig, hst, hblocks, _⟩ := check_mounts_mem src d mi hmi
    rw [heq] at hro hig hst
    rcases h with h1 | h2 | h3 | h4 | ⟨buf, hbuf, hz⟩
    · rw [h1] at hro; exact Bool.noConfusion hro
    · rw [(ldsm_mount_should_ignore_iff d m).mpr (Or.inl h2)] at hig
      exact Bool.noConfusion hig
    · rw [(ldsm_mount_should_ignore_iff d m).mpr (Or.inr (Or.inl h3))] at hig
      exact Bool.noConfusion hig
    · rw [(ldsm_mount_should_ignore_iff d m).mpr (Or.inr (Or.inr h4))] at hig
      exact Bool.noConfusion hig
    · rw [hbuf] at hst
      exact hblocks (by rw [← Option.some.inj hst]; exact hz)
  have hfull : ∀ mi ∈ full_mounts src d, mi.mount ≠ m :=
    fun mi hmi => hcheck mi (full_mounts_mem src d mi hmi).1
  refine ⟨hcheck, hfull, ?_, ?_, by decide⟩
  · rw [List.countP_eq_zero]
    intro mi hmi
    simpa using hcheck mi hmi
  · obtain ⟨new, hnew, hall⟩ := loop_attempts o
      (decide ((check_mounts src d).length > 1))
      (decide ((check_mounts src d).length > (full_mounts src d).length))
      (full_mounts src d) false (ldsm_check_all_mounts_classify (check_mounts src d) [] d).2
    refine ⟨new, ?_, fun x hx => ?_⟩
    · rw [(classify_frame (check_mounts src d) [] d).2.2.2.1] at hnew
      exact hnew
    · obtain ⟨mi, hmi, hx2, _⟩ := hall x hx
      rw [hx2]
      exact hfull mi hmi

/-- C5 at Example B: the `tmpfs` mount `/run` is not counted among the checked mounts. -/
theorem C5_ignored_mounts_never_checked_witness :
    List.countP (fun mi => decide (mi.mount = mountTmp)) (check_mounts srcTwoLow DiskSpaceNew)
      = 0 :=
  (C5_ignored_mounts_never_checked oracleCancel srcTwoLow DiskSpaceNew mountTmp
    (Or.inr (Or.inr (Or.inl (by decide))))).2.2.1

/-! ## Which paths have an entry (C6) -/

/-- C7, the code at the failing input: `ldsm_notify_for_mount` is called on the fresh monitor
(no dialog active) and the dialog is answered `GTK_RESPONSE_CANCEL`.  When the call returns
the `dialog` member is still non-null, and a later check cycle with two low mounts executes
no dialog at all. -/
theorem C7_dialog_member_stays_set :
    DiskSpaceNew.dialog = false ∧
    (ldsm_notify_for_mount oracleCancel DiskSpaceNew mountA40 false false).2.dialog = true ∧
    (ldsm_check_all_mounts oracleCancel srcTwoLow
      (ldsm_notify_for_mount oracleCancel DiskSpaceNew mountA40 false false).2).shown =
      (ldsm_notify_for_mount oracleCancel DiskSpaceNew mountA40 false false).2.shown := by
  decide!

/-! ## A call while a dialog is active (C8) -/

/-- C8, the claim as stated fails: with the `dialog` member non-null and the low mounts
`/data` and `/home` without entries, the call for `/data` returns true, the iteration sets
`done`, and `/home` is not processed: it gets neither an entry nor a notification attempt. -/
theorem C8_active_dialog_sets_done :
    (ldsm_notify_for_mount oracleCancel diskDialogActive mountA40 true false).1 = true ∧
    (ldsm_maybe_warn_mounts_body oracleCancel true false mountA40 false diskDialogActive).1
      = true ∧
    g_hash_table_lookup
      (ldsm_maybe_warn_mounts oracleCancel diskDialogActive [mountA40, mountB30]
        true false).ldsm_notified_hash "/home" = none ∧
    (ldsm_maybe_warn_mounts oracleCancel diskDialogActive [mountA40, mountB30]
      true false).attempts.map (fun m => m.mount.mount_path) = ["/data"] := by
  decide!

/-- C8, amended: when `ldsm_notify_for_mount` is called while the `dialog` member is non-null,
no dialog is executed and the call returns true, the value of a handled response; for a
first low mount without entry `ldsm_maybe_warn_mounts` therefore sets `done`, keeps the entry
just created, and skips every later low mount of the cycle, so that the run changes nothing
but that entry, the clock count and the log of attempts. -/
theorem C8_active_dialog_counts_as_handled (o : Oracle) (d : DIskSpace) (mi : LdsmMountInfo)
    (rest : List LdsmMountInfo) (mv ouv : Bool) (hd : d.dialog = true)
    (hnone : g_hash_table_lookup d.ldsm_notified_hash mi.mount.mount_path = none) :
    ldsm_notify_for_mount o d mi mv ouv = (true, { d with attempts := d.attempts ++ [mi] }) ∧
    (ldsm_maybe_warn_mounts_body o mv ouv mi false d).1 = true ∧
    ldsm_maybe_warn_mounts o d (mi :: rest) mv ouv =
      { d with
        time_calls := d.time_calls + 1
        ldsm_notified_hash := g_hash_table_replace d.ldsm_notified_hash mi.mount.mount_path
          { mi with notify_time := o.time d.time_calls }
        attempts := d.attempts ++ [{ mi with notify_time := o.time d.time_calls }] } := by
  have key := notify_of_dialog o
    { d with
      time_calls := d.time_calls + 1
      ldsm_notified_hash := g_hash_table_replace d.ldsm_notified_hash mi.mount.mount_path
        { mi with notify_time := o.time d.time_calls } }
    { mi with notify_time := o.time d.time_calls } mv ouv hd
  refine ⟨notify_of_dialog o d mi mv ouv hd, ?_, ?_⟩
  · rw [body_none o mv ouv mi d hnone, key]
  · unfold ldsm_maybe_warn_mounts
    simp only [ldsm_maybe_warn_mounts_loop]
    rw [body_none o mv ouv mi d hnone, key]
    exact loop_done o mv ouv rest _

/-- C8 (amended) on the fresh monitor with the `dialog` member non-null: the iteration for
`/data` sets `done`. -/
theorem C8_active_dialog_counts_as_handled_witness :
    (ldsm_maybe_warn_mounts_body oracleCancel true false mountA40 false diskDialogActive).1
      = true :=
  (C8_active_dialog_counts_as_handled oracleCancel diskDialogActive mountA40 [mountB30]
    true false rfl (by decide)).2.1

/-! ## Response handling (C9) -/

/-- C9: a call of `ldsm_notify_for_mount` with no dialog active executes one dialog; the
value returned is true exactly when the response is `LDSM_DIALOG_RESPONSE_EMPTY_TRASH`,
`GTK_RESPONSE_NONE` or `GTK_RESPONSE_DELETE_EVENT`, false exactly when it is
`GTK_RESPONSE_CANCEL` or `LDSM_DIALOG_RESPONSE_ANALYZE`, and `ldsm_analyze_path` is called,
once and with the mount path, exactly when the response is `LDSM_DIALOG_RESPONSE_ANALYZE`. -/
theorem C9_handled_iff_trash_or_dismissed (o : Oracle) (d : DIskSpace) (mount : LdsmMountInfo)
    (mv ouv : Bool) (hd : d.dialog = false) :
    (ldsm_notify_for_mount o d mount mv ouv).2.shown = d.shown ++
      [{ other_usable_volumes := ouv, multiple_volumes := mv,
         free_space := free_space_bytes mount.buf, path := mount.mount.mount_path,
         response := o.exec d.shown.length }] ∧
    ((ldsm_notify_for_mount o d mount mv ouv).1 = true ↔
      (o.exec d.shown.length = Response.LDSM_DIALOG_RESPONSE_EMPTY_TRASH ∨
       o.exec d.shown.length = Response.GTK_RESPONSE_NONE ∨
       o.exec d.shown.length = Response.GTK_RESPONSE_DELETE_EVENT)) ∧
    ((ldsm_notify_for_mount o d mount mv ouv).1 = false ↔
      (o.exec d.shown.length = Response.GTK_RESPONSE_CANCEL ∨
       o.exec d.shown.length = Response.LDSM_DIALOG_RESPONSE_ANALYZE)) ∧
    (o.exec d.shown.length = Response.LDSM_DIALOG_RESPONSE_ANALYZE →
      (ldsm_notify_for_mount o d mount mv ouv).2.analyzed =
        d.analyzed ++ [mount.mount.mount_path]) ∧
    (o.exec d.shown.length ≠ Response.LDSM_DIALOG_RESPONSE_ANALYZE →
      (ldsm_notify_for_mount o d mount mv ouv).2.analyzed = d.analyzed) := by
  refine ⟨notify_shown_of_no_dialog o d mount mv ouv hd, ?_⟩
  unfold ldsm_notify_for_mount
  simp only [hd]
  cases o.exec d.shown.length <;> simp

/-- C9 on the fresh monitor: the analyze response launches the analyzer on `/data`. -/
theorem C9_handled_iff_trash_or_dismissed_witness :
    (ldsm_notify_for_mount oracleAnalyze DiskSpaceNew mountA40 false false).2.analyzed =
      DiskSpaceNew.analyzed ++ [mountA40.mount.mount_path] :=
  (C9_handled_iff_trash_or_dismissed oracleAnalyze DiskSpaceNew mountA40 false false
    rfl).2.2.2.1 rfl

/-! ## A second dialog after an unhandled response (C10) -/

/-- C10, the code at the failing input: the fresh monitor checks `/data` and `/home`, both
low and without entry.  The dialog for `/data` is executed and answered
`GTK_RESPONSE_CANCEL` (or with the analyze button); `ldsm_notify_for_mount` is then called
for `/home` as well, but the `dialog` member is still non-null and no second dialog is
executed. -/
theorem C10_second_dialog_not_shown :
    (full_mounts srcTwoLow DiskSpaceNew).map (fun m => m.mount.mount_path) =
      ["/data", "/home"] ∧
    DiskSpaceNew.ldsm_notified_hash = [] ∧
    (ldsm_check_all_mounts oracleCancel srcTwoLow DiskSpaceNew).attempts.map
      (fun m => m.mount.mount_path) = ["/data", "/home"] ∧
    (ldsm_check_all_mounts oracleCancel srcTwoLow DiskSpaceNew).shown.map
      (fun s => (s.path, s.response)) = [("/data", Response.GTK_RESPONSE_CANCEL)] ∧
    (ldsm_check_all_mounts oracleAnalyze srcTwoLow DiskSpaceNew).attempts.map
      (fun m => m.mount.mount_path) = ["/data", "/home"] ∧
    (ldsm_check_all_mounts oracleAnalyze srcTwoLow DiskSpaceNew).shown.map
      (fun s => (s.path, s.response)) = [("/data", Response.LDSM_DIALOG_RESPONSE_ANALYZE)] := by
  decide!

/-! ## Low mounts after `done` is set (C11) -/

/-- C11: once `done` is set in `ldsm_maybe_warn_mounts`, the rest of the list changes nothing:
the loop entered with `done` set returns the state it was given (no entry created, replaced
or removed, no notification attempted), and if the iteration for the first mount sets
`done`, the run ends in the state that iteration left, with the entry of every other path as
it was.  In particular, for two low mounts with different paths, no dialog active, the first
without entry and its dialog closed (`GTK_RESPONSE_NONE` or `GTK_RESPONSE_DELETE_EVENT`),
the entry of the second (or its absence) is after the run what it was before, and the only
notification attempt is the one for the first; the same holds for the whole check cycle
`ldsm_check_all_mounts` when these two are its low mounts. -/
theorem C11_done_leaves_later_mounts_untouched (o : Oracle) :
    (∀ (mv ouv : Bool) (l : List LdsmMountInfo) (d : DIskSpace),
      ldsm_maybe_warn_mounts_loop o mv ouv l true d = d) ∧
    (∀ (mv ouv : Bool) (mi : LdsmMountInfo) (rest : List LdsmMountInfo) (d : DIskSpace),
      (ldsm_maybe_warn_mounts_body o mv ouv mi false d).1 = true →
      ldsm_maybe_warn_mounts o d (mi :: rest) mv ouv =
        (ldsm_maybe_warn_mounts_body o mv ouv mi false d).2 ∧
      ∀ p, mi.mount.mount_path ≠ p →
        g_hash_table_lookup (ldsm_maybe_warn_mounts o d (mi :: rest) mv ouv).ldsm_notified_hash
          p = g_hash_table_lookup d.ldsm_notified_hash p) ∧
    (∀ (mv ouv : Bool) (m1 m2 : LdsmMountInfo) (d : DIskSpace),
      d.dialog = false →
      g_hash_table_lookup d.ldsm_notified_hash m1.mount.mount_path = none →
      (o.exec d.shown.length = Response.GTK_RESPONSE_NONE ∨
        o.exec d.shown.length = Response.GTK_RESPONSE_DELETE_EVENT) →
      m1.mount.mount_path ≠ m2.mount.mount_path →
      g_hash_table_lookup (ldsm_maybe_warn_mounts o d [m1, m2] mv ouv).ldsm_notified_hash
          m2.mount.mount_path =
        g_hash_table_lookup d.ldsm_notified_hash m2.mount.mount_path ∧
      (ldsm_maybe_warn_mounts o d [m1, m2] mv ouv).attempts =
        d.attempts ++ [{ m1 with notify_time := o.time d.time_calls }]) ∧
    (∀ (src : MountSource) (m1 m2 : LdsmMountInfo) (d : DIskSpace),
      full_mounts src d = [m1, m2] →
      d.dialog = false →
      g_hash_table_lookup d.ldsm_notified_hash m1.mount.mount_path = none →
      (o.exec d.shown.length = Response.GTK_RESPONSE_NONE ∨
        o.exec d.shown.length = Response.GTK_RESPONSE_DELETE_EVENT) →
      m1.mount.mount_path ≠ m2.mount.mount_path →
      g_hash_table_lookup (ldsm_check_all_mounts o src d).ldsm_notified_hash
          m2.mount.mount_path =
        g_hash_table_lookup d.ldsm_notified_hash m2.mount.mount_path ∧
      (ldsm_check_all_mounts o src d).attempts =
        d.attempts ++ [{ m1 with notify_time := o.time d.time_calls }]) := by
  have part2 : ∀ (mv ouv : Bool) (mi : LdsmMountInfo) (rest : List LdsmMountInfo)
      (d : DIskSpace), (ldsm_maybe_warn_mounts_body o mv ouv mi false d).1 = true →
      ldsm_maybe_warn_mounts o d (mi :: rest) mv ouv =
        (ldsm_maybe_warn_mounts_body o mv ouv mi false d).2 := by
    intro mv ouv mi rest d hdone
    unfold ldsm_maybe_warn_mounts
    simp only [ldsm_maybe_warn_mounts_loop]
    rw [hdone]
    exact loop_done o mv ouv rest _
  have part3 : ∀ (mv ouv : Bool) (m1 m2 : LdsmMountInfo) (d : DIskSpace),
      d.dialog = false →
      g_hash_table_lookup d.ldsm_notified_hash m1.mount.mount_path = none →
      (o.exec d.shown.length = Response.GTK_RESPONSE_NONE ∨
        o.exec d.shown.length = Response.GTK_RESPONSE_DELETE_EVENT) →
      m1.mount.mount_path ≠ m2.mount.mount_path →
      g_hash_table_lookup (ldsm_maybe_warn_mounts o d [m1, m2] mv ouv).ldsm_notified_hash
          m2.mount.mount_path =
        g_hash_table_lookup d.ldsm_notified_hash m2.mount.mount_path ∧
      (ldsm_maybe_warn_mounts o d [m1, m2] mv ouv).attempts =
        d.attempts ++ [{ m1 with notify_time := o.time d.time_calls }] := by
    intro mv ouv m1 m2 d hd hnone hr hne
    have hbody := body_none o mv ouv m1 d hnone
    have hdone : (ldsm_maybe_warn_mounts_body o mv ouv m1 false d).1 = true := by
      rw [hbody]
      exact notify_handled_of_dismissed o _ _ mv ouv hd hr
    rw [part2 mv ouv m1 [m2] d hdone]
    refine ⟨body_lookup_ne o mv ouv m1 false d _ hne, ?_⟩
    rw [hbody, (notify_frame o _ _ mv ouv).2.1]
  refine ⟨fun mv ouv => loop_done o mv ouv,
    fun mv ouv mi rest d hdone => ⟨part2 mv ouv mi rest d hdone, fun p hne => ?_⟩,
    part3, fun src m1 m2 d hfull hd hnone hr hne => ?_⟩
  · rw [part2 mv ouv mi rest d hdone]
    exact body_lookup_ne o mv ouv mi false d p hne
  · obtain ⟨_, hdlg, hshown, hatt, htime, _⟩ := classify_frame (check_mounts src d) [] d
    have hnone2 : g_hash_table_lookup
        (ldsm_check_all_mounts_classify (check_mounts src d) [] d).2.ldsm_notified_hash
        m1.mount.mount_path = none := by
      by_contra hcon
      exact (classify_lookup_some _ _ _ _ hcon).1 hnone
    have hlow : classified_low src d m2.mount.mount_path = true :=
      (classified_low_iff src d _).mpr ⟨m2, by rw [hfull]; simp, rfl⟩
    have hkeep : g_hash_table_lookup
        (ldsm_check_all_mounts_classify (check_mounts src d) [] d).2.ldsm_notified_hash
        m2.mount.mount_path = g_hash_table_lookup d.ldsm_notified_hash m2.mount.mount_path := by
      refine classify_lookup_kept _ _ _ _ (fun m hm hp => ?_)
      cases hsp : ldsm_mount_has_space d m
      · rfl
      · have hsuff := (classified_sufficient_iff src d m2.mount.mount_path).mpr
          ⟨m, hm, hp, hsp⟩
        rw [not_low_of_sufficient src d _ hsuff] at hlow
        exact Bool.noConfusion hlow
    have h3 := part3 (decide ((check_mounts src d).length > 1))
      (decide ((check_mounts src d).length > (full_mounts src d).length)) m1 m2
      (ldsm_check_all_mounts_classify (check_mounts src d) [] d).2
      (hdlg.trans hd) hnone2 (by rw [hshown]; exact hr) hne
    have heq : ldsm_check_all_mounts o src d =
        ldsm_maybe_warn_mounts o (ldsm_check_all_mounts_classify (check_mounts src d) [] d).2
          [m1, m2] (decide ((check_mounts src d).length > 1))
          (decide ((check_mounts src d).length > (full_mounts src d).length)) := by
      rw [check_all_mounts_eq, hfull]
      rfl
    rw [heq, h3.1, h3.2, hkeep, hatt, htime]
    exact ⟨rfl, rfl⟩

/-- C11 on two low mounts: `/home` has an entry from time 0 with 30 blocks free and has 10
blocks free at time 700, the dialog for `/data` is closed; the entry of `/home` is left as
it was. -/
theorem C11_done_leaves_later_mounts_untouched_witness :
    g_hash_table_lookup
      (ldsm_maybe_warn_mounts oracleDismiss diskHomeNotified [mountA40, mountB10]
        true false).ldsm_notified_hash mountB10.mount.mount_path =
      g_hash_table_lookup diskHomeNotified.ldsm_notified_hash mountB10.mount.mount_path :=
  ((C11_done_leaves_later_mounts_untouched oracleDismiss).2.2.1 true false mountA40 mountB10
    diskHomeNotified rfl (by decide) (Or.inl rfl) (by decide)).1

/-! ## A further drop that comes too soon (C12) -/

/-- C12, the claim as stated fails: `/home` is low and has an entry from time 0 with 30 of
1000 blocks free; at time 100 it has 10 of 1000 blocks free, and `min_notify_period` is
71582789 minutes.  The drop is above `free_percent_notify_again` and
`now - prev.notify_time = 100 <= min_notify_period * 60 = 4294967340`, yet a notification is
attempted and the entry gets the time 100: the product computed in 32 bits is 44. -/
theorem C12_long_period_notifies_anyway :
    ldsm_mount_has_space diskLongPeriod mountB10 = false ∧
    g_hash_table_lookup diskLongPeriod.ldsm_notified_hash mountB10.mount.mount_path =
      some mountB30 ∧
    Double.gt
      (Double.sub
        (Double.div (Double.ofNat mountB30.buf.f_bavail) (Double.ofNat mountB30.buf.f_blocks))
        (Double.div (Double.ofNat mountB10.buf.f_bavail) (Double.ofNat mountB10.buf.f_blocks)))
      diskLongPeriod.free_percent_notify_again = true ∧
    (mountB30.buf.f_bavail : ℚ) / (mountB30.buf.f_blocks : ℚ) -
        (mountB10.buf.f_bavail : ℚ) / (mountB10.buf.f_blocks : ℚ) > 1 / 100 ∧
    oracleHundred.time diskLongPeriod.time_calls - mountB30.notify_time ≤
      diskLongPeriod.min_notify_period * 60 ∧
    toInt32 (diskLongPeriod.min_notify_period * 60) = 44 ∧
    (ldsm_maybe_warn_mounts_body oracleHundred true false mountB10 false
      diskLongPeriod).2.attempts ≠ diskLongPeriod.attempts ∧
    g_hash_table_lookup
      (ldsm_maybe_warn_mounts_body oracleHundred true false mountB10 false
        diskLongPeriod).2.ldsm_notified_hash mountB10.mount.mount_path =
      some { mount := mountB10.mount, buf := mountB10.buf, notify_time := 100 } ∧
    mountB30.notify_time ≠ 100 := by
  decide!

/-- C12, amended: for a low mount with a prior entry `prev`, reached while `done` is not
set, where `priorRatio - currentRatio > free_percent_notify_again`, the two quotients and
their difference computed in IEEE doubles, but
`now - prev.notify_time <= min_notify_period * 60`, the product computed as a 32-bit `int`,
the iteration of `ldsm_maybe_warn_mounts` replaces the entry by the current mount
information with `notify_time` taken from `prev`, leaves every other entry alone, attempts
no notification and leaves `done` unset.  The 32-bit product is the exact product whenever
that fits 32 bits. -/
theorem C12_too_soon_keeps_time_updates_ratio (o : Oracle) (mv ouv : Bool)
    (mi prev : LdsmMountInfo) (d : DIskSpace)
    (hentry : g_hash_table_lookup d.ldsm_notified_hash mi.mount.mount_path = some prev)
    (hA : Double.gt
      (Double.sub
        (Double.div (Double.ofNat prev.buf.f_bavail) (Double.ofNat prev.buf.f_blocks))
        (Double.div (Double.ofNat mi.buf.f_bavail) (Double.ofNat mi.buf.f_blocks)))
      d.free_percent_notify_again = true)
    (hB : o.time d.time_calls - prev.notify_time ≤ toInt32 (d.min_notify_period * 60)) :
    g_hash_table_lookup
        (ldsm_maybe_warn_mounts_body o mv ouv mi false d).2.ldsm_notified_hash
        mi.mount.mount_path =
      some { mount := mi.mount, buf := mi.buf, notify_time := prev.notify_time } ∧
    (∀ p, mi.mount.mount_path ≠ p →
      g_hash_table_lookup (ldsm_maybe_warn_mounts_body o mv ouv mi false d).2.ldsm_notified_hash
        p = g_hash_table_lookup d.ldsm_notified_hash p) ∧
    (ldsm_maybe_warn_mounts_body o mv ouv mi false d).2.attempts = d.attempts ∧
    (ldsm_maybe_warn_mounts_body o mv ouv mi false d).2.shown = d.shown ∧
    (ldsm_maybe_warn_mounts_body o mv ouv mi false d).1 = false ∧
    (-2 ^ 31 ≤ d.min_notify_period * 60 → d.min_notify_period * 60 < 2 ^ 31 →
      toInt32 (d.min_notify_period * 60) = d.min_notify_period * 60) := by
  have hB2 : Double.gt (difftime (o.time d.time_calls) prev.notify_time)
      (min_notify_seconds d) = false := (time_gate_false_iff d _ _).mpr hB
  rw [body_some_too_soon o mv ouv mi prev d hentry hA hB2]
  exact ⟨lookup_replace_self _ _ _, fun p hne => lookup_replace_ne _ _ hne, rfl, rfl, rfl,
    fun hlo hhi => toInt32_of_range _ hlo hhi⟩

/-- C12 (amended) on `/home`: entered at time 0 with 30 blocks free, 10 blocks free at time
5 with the default period of 10 minutes; no notification is attempted and the entry keeps
the time 0 with the new block counts. -/
theorem C12_too_soon_keeps_time_updates_ratio_witness :
    g_hash_table_lookup
        (ldsm_maybe_warn_mounts_body oracleSoonDismiss true false mountB10 false
          diskHomeNotified).2.ldsm_notified_hash mountB10.mount.mount_path =
      some { mount := mountB10.mount, buf := mountB10.buf,
             notify_time := mountB30.notify_time } ∧
    (ldsm_maybe_warn_mounts_body oracleSoonDismiss true false mountB10 false
      diskHomeNotified).2.attempts = diskHomeNotified.attempts :=
  ⟨(C12_too_soon_keeps_time_updates_ratio oracleSoonDismiss true false mountB10 mountB30
      diskHomeNotified (by decide) (by decide!) (by decide)).1,
   (C12_too_soon_keeps_time_updates_ratio oracleSoonDismiss true false mountB10 mountB30
      diskHomeNotified (by decide) (by decide!) (by decide)).2.2.1⟩

/-! ## A small further drop (C13) -/

/-- C13, the claim as stated fails: `/data` has an entry from time 0 with 40 of 1000 blocks
free and now, at time 700, has 30 of 1000 blocks free.  The drop is exactly 1/100, which is
not above `free_percent_notify_again` (the `double` 0.01, a little above 1/100), yet the
entry is replaced (30 blocks, time 700) and a notification is attempted: in `double`s the
difference of the quotients is 0.010000000000000002. -/
theorem C13_exact_drop_replaces_entry :
    g_hash_table_lookup diskNotified.ldsm_notified_hash mountA30.mount.mount_path =
      some mountA40 ∧
    diskNotified.free_percent_notify_again =
      Double.finite (5764607523034235 / 576460752303423488) ∧
    (mountA40.buf.f_bavail : ℚ) / (mountA40.buf.f_blocks : ℚ) -
        (mountA30.buf.f_bavail : ℚ) / (mountA30.buf.f_blocks : ℚ) ≤
      5764607523034235 / 576460752303423488 ∧
    (mountA40.buf.f_bavail : ℚ) / (mountA40.buf.f_blocks : ℚ) -
        (mountA30.buf.f_bavail : ℚ) / (mountA30.buf.f_blocks : ℚ) ≤ 1 / 100 ∧
    g_hash_table_lookup
      (ldsm_maybe_warn_mounts_body oracleDismiss false false mountA30 false
        diskNotified).2.ldsm_notified_hash mountA30.mount.mount_path =
      some { mount := mountA30.mount, buf := mountA30.buf, notify_time := 700 } ∧
    mountA40.buf ≠ mountA30.buf ∧
    mountA40.notify_time ≠ 700 ∧
    (ldsm_maybe_warn_mounts_body oracleDismiss false false mountA30 false
      diskNotified).2.attempts ≠ diskNotified.attempts := by
  decide!

/-- C13, amended: for a low mount with a prior entry `prev` where
`priorRatio - currentRatio <= free_percent_notify_again`, the two quotients and their
difference computed in IEEE doubles, the iteration of `ldsm_maybe_warn_mounts` changes
nothing, whatever the value of `done`: the entry is still `prev` (same statistics, same
`notify_time`) and no notification is attempted.  Example A, second step, is the instance
with 40 of 1000 blocks at time 0, 35 of 1000 blocks at time 5 and
`free_percent_notify_again = 0.01`. -/
theorem C13_small_drop_changes_nothing (o : Oracle) (mv ouv : Bool)
    (mi prev : LdsmMountInfo) (done : Bool) (d : DIskSpace)
    (hentry : g_hash_table_lookup d.ldsm_notified_hash mi.mount.mount_path = some prev)
    (hA : Double.le
      (Double.sub
        (Double.div (Double.ofNat prev.buf.f_bavail) (Double.ofNat prev.buf.f_blocks))
        (Double.div (Double.ofNat mi.buf.f_bavail) (Double.ofNat mi.buf.f_blocks)))
      d.free_percent_notify_again = true) :
    ldsm_maybe_warn_mounts_body o mv ouv mi done d = (done, d) ∧
    g_hash_table_lookup
        (ldsm_maybe_warn_mounts_body o mv ouv mi done d).2.ldsm_notified_hash
        mi.mount.mount_path = some prev ∧
    (ldsm_maybe_warn_mounts_body o mv ouv mi done d).2.attempts = d.attempts ∧
    (ldsm_maybe_warn_mounts_body o mv ouv mi done d).2.shown = d.shown := by
  have key : ldsm_maybe_warn_mounts_body o mv ouv mi done d = (done, d) := by
    cases done
    · exact body_some_small o mv ouv mi prev d hentry (double_gt_false_of_le _ _ hA)
    · exact body_done o mv ouv mi d
  rw [key]
  exact ⟨rfl, hentry, rfl, rfl⟩

/-- C13 (amended) at Example A, second step: no notification is attempted and the entry of
`/data` still carries the 40 blocks and the time 0 of the first notification. -/
theorem C13_small_drop_changes_nothing_witness :
    g_hash_table_lookup
        (ldsm_maybe_warn_mounts_body oracleSoonDismiss false false mountA35 false
          diskNotified).2.ldsm_notified_hash mountA35.mount.mount_path = some mountA40 ∧
    (ldsm_maybe_warn_mounts_body oracleSoonDismiss false false mountA35 false
      diskNotified).2.attempts = diskNotified.attempts :=
  ⟨(C13_small_drop_changes_nothing oracleSoonDismiss false false mountA35 mountA40 false
      diskNotified (by decide) (by decide!)).2.1,
   (C13_small_drop_changes_nothing oracleSoonDismiss false false mountA35 mountA40 false
      diskNotified (by decide) (by decide!)).2.2.1⟩

/-! ## Validation of the thresholds (C14) -/

/-- The two thresholds that `usdLdsmGetConfig` stores, as functions of the two settings. -/
theorem usdLdsmGetConfig_thresholds (settings : QGSettings) (d : DIskSpace) :
    (usdLdsmGetConfig settings d).free_percent_notify =
      (if Double.ge settings.free_percent_notify (Double.ofInt 1) ||
          Double.lt settings.free_percent_notify (Double.ofInt 0) then Double.ofRat (5 / 100)
        else settings.free_percent_notify) ∧
    (usdLdsmGetConfig settings d).free_percent_notify_again =
      (if Double.ge settings.free_percent_notify_again (Double.ofInt 1) ||
          Double.lt settings.free_percent_notify_again (Double.ofInt 0)
        then Double.ofRat (1 / 100) else settings.free_percent_notify_again) := by
  unfold usdLdsmGetConfig
  cases settings.ignore_paths <;> exact ⟨rfl, rfl⟩

/-- The range test of `usdLdsmGetConfig` on a value that is not NaN: the value is replaced
exactly when it is not in `[0, 1)`. -/
theorem range_test_of_ne_nan (v : Double) (hv : v ≠ Double.nan) :
    (Double.ge v (Double.ofInt 1) || Double.lt v (Double.ofInt 0)) =
      !(Double.le (Double.ofInt 0) v && Double.lt v (Double.ofInt 1)) := by
  have h1 : Double.ofInt 1 = Double.finite 1 := by
    rw [ofInt_small 1 (by decide)]; norm_num
  have h0 : Double.ofInt 0 = Double.finite 0 := by
    rw [ofInt_small 0 (by decide)]; norm_num
  rw [h1, h0]
  cases v with
  | nan => exact absurd rfl hv
  | inf s => cases s <;> rfl
  | finite q =>
    simp only [Double.ge, Double.le, Double.lt]
    by_cases ha : 1 ≤ q
    · have hb : ¬ q < 1 := not_lt.mpr ha
      simp [ha, hb]
    · have hb : q < 1 := not_le.mp ha
      by_cases hc : q < 0
      · have hd : ¬ 0 ≤ q := not_le.mpr hc
        simp [ha, hb, hc, hd]
      · have hd : 0 ≤ q := not_lt.mp hc
        simp [ha, hb, hc, hd]

/-- For settings that are not NaN the validation of `usdLdsmGetConfig` does what C14 says:
a value in `[0, 1)` is kept, any other is replaced by the default, and the stored
thresholds lie in `[0, 1)`. -/
theorem usdLdsmGetConfig_validates_of_ne_nan (settings : QGSettings) (d : DIskSpace)
    (h1 : settings.free_percent_notify ≠ Double.nan)
    (h2 : settings.free_percent_notify_again ≠ Double.nan) :
    (usdLdsmGetConfig settings d).free_percent_notify =
      (if Double.le (Double.ofInt 0) settings.free_percent_notify &&
          Double.lt settings.free_percent_notify (Double.ofInt 1)
        then settings.free_percent_notify else Double.ofRat (5 / 100)) ∧
    (usdLdsmGetConfig settings d).free_percent_notify_again =
      (if Double.le (Double.ofInt 0) settings.free_percent_notify_again &&
          Double.lt settings.free_percent_notify_again (Double.ofInt 1)
        then settings.free_percent_notify_again else Double.ofRat (1 / 100)) ∧
    (Double.le (Double.ofInt 0) (usdLdsmGetConfig settings d).free_percent_notify &&
      Double.lt (usdLdsmGetConfig settings d).free_percent_notify (Double.ofInt 1)) = true ∧
    (Double.le (Double.ofInt 0) (usdLdsmGetConfig settings d).free_percent_notify_again &&
      Double.lt (usdLdsmGetConfig settings d).free_percent_notify_again (Double.ofInt 1)) =
      true := by
  have hd5 : (Double.le (Double.ofInt 0) (Double.ofRat (5 / 100)) &&
      Double.lt (Double.ofRat (5 / 100)) (Double.ofInt 1)) = true := by decide!
  have hd1 : (Double.le (Double.ofInt 0) (Double.ofRat (1 / 100)) &&
      Double.lt (Double.ofRat (1 / 100)) (Double.ofInt 1)) = true := by decide!
  obtain ⟨e1, e2⟩ := usdLdsmGetConfig_thresholds settings d
  rw [e1, e2, range_test_of_ne_nan _ h1, range_test_of_ne_nan _ h2]
  refine ⟨?_, ?_, ?_, ?_⟩
  · cases Double.le (Double.ofInt 0) settings.free_percent_notify &&
        Double.lt settings.free_percent_notify (Double.ofInt 1) <;> rfl
  · cases Double.le (Double.ofInt 0) settings.free_percent_notify_again &&
        Double.lt settings.free_percent_notify_again (Double.ofInt 1) <;> rfl
  · cases h : Double.le (Double.ofInt 0) settings.free_percent_notify &&
        Double.lt settings.free_percent_notify (Double.ofInt 1)
    · simpa using hd5
    · simpa using h
  · cases h : Double.le (Double.ofInt 0) settings.free_percent_notify_again &&
        Double.lt settings.free_percent_notify_again (Double.ofInt 1)
    · simpa using hd1
    · simpa using h

/-- C14, the code at the failing input: when the two percentage settings are NaN, both range
tests `x >= 1 || x < 0` are false, so `usdLdsmGetConfig` keeps NaN in `free_percent_notify`
and in `free_percent_notify_again`; the stored values are neither the configured value of
`[0, 1)` nor the defaults, and they do not lie in `[0, 1)`. -/
theorem C14_nan_threshold_kept :
    (Double.ge settingsNaN.free_percent_notify (Double.ofInt 1) ||
      Double.lt settingsNaN.free_percent_notify (Double.ofInt 0)) = false ∧
    (usdLdsmGetConfig settingsNaN DiskSpaceNew).free_percent_notify = Double.nan ∧
    (usdLdsmGetConfig settingsNaN DiskSpaceNew).free_percent_notify_again = Double.nan ∧
    (usdLdsmGetConfig settingsNaN DiskSpaceNew).free_percent_notify ≠ Double.ofRat (5 / 100) ∧
    (usdLdsmGetConfig settingsNaN DiskSpaceNew).free_percent_notify_again ≠
      Double.ofRat (1 / 100) ∧
    Double.le (Double.ofInt 0)
      (usdLdsmGetConfig settingsNaN DiskSpaceNew).free_percent_notify = false ∧
    Double.lt (usdLdsmGetConfig settingsNaN DiskSpaceNew).free_percent_notify
      (Double.ofInt 1) = false ∧
    Double.le (Double.ofInt 0)
      (usdLdsmGetConfig settingsNaN DiskSpaceNew).free_percent_notify_again = false ∧
    Double.lt (usdLdsmGetConfig settingsNaN DiskSpaceNew).free_percent_notify_again
      (Double.ofInt 1) = false := by
  decide!

/-! ## Loop devices (C15) -/

/-- C15, the claim as stated fails: the device `/dev/loop0` begins with the denylist entry
`/dev/loop`, yet `ldsm_mount_should_ignore` returns false for the mount and the first loop
of `ldsm_check_all_mounts` puts it on `check_mounts`. -/
theorem C15_loop0_not_ignored :
    String.isPrefixOf "/dev/loop" mountLoop0.device_path = true ∧
    ldsm_mount_should_ignore DiskSpaceNew mountLoop0 = false ∧
    (check_mounts srcLoop DiskSpaceNew).map (fun mi => mi.mount) = [mountLoop0] := by
  decide!

/-- C15, amended: for every live mount whose device identifier is equal to an entry of the
array `ignore_devices` (`none`, `sunrpc`, `devpts`, `nfsd`, `/dev/loop`, `/dev/vn`),
`ldsm_mount_should_ignore` returns true and no check puts the mount on `check_mounts`. -/
theorem C15_denylisted_device_ignored (d : DIskSpace) (m : GUnixMountEntry)
    (hdev : m.device_path ∈ ignore_devices) :
    ldsm_mount_should_ignore d m = true ∧
    ∀ (src : MountSource), ∀ mi ∈ check_mounts src d, mi.mount ≠ m := by
  have hig : ldsm_mount_should_ignore d m = true :=
    (ldsm_mount_should_ignore_iff d m).mpr (Or.inr (Or.inr hdev))
  refine ⟨hig, fun src mi hmi heq => ?_⟩
  have hno := (check_mounts_mem src d mi hmi).2.2.1
  rw [heq, hig] at hno
  exact Bool.noConfusion hno

/-- C15 (amended) at a mount whose device path is `/dev/loop` itself. -/
theorem C15_denylisted_device_ignored_witness :
    ldsm_mount_should_ignore DiskSpaceNew mountLoopExact = true :=
  (C15_denylisted_device_ignored DiskSpaceNew mountLoopExact (by decide)).1

/-! ## The purge on a mount change (C16) -/

/-- C16: for every notification table and every list of live mounts, the purge step of
`ldsm_mounts_changed` removes exactly the entries whose key is the path of no live mount:
an entry is in the table afterwards if and only if it was there before and its key is the
path of a live mount, the entries that stay keep their order and content (key, statistics,
`notify_time`), a lookup of a live path gives what it gave before, a lookup of any other
path gives nothing, and no other member changes; `ldsm_mounts_changed` then runs a check
of all mounts on the purged table. -/
theorem C16_purge_removes_exactly_dead_paths (mounts : List GUnixMountEntry)
    (d : DIskSpace) :
    (∀ e : String × LdsmMountInfo,
      e ∈ (ldsm_mounts_changed_purge mounts d).ldsm_notified_hash ↔
        e ∈ d.ldsm_notified_hash ∧ ∃ m ∈ mounts, m.mount_path = e.1) ∧
    List.Sublist (ldsm_mounts_changed_purge mounts d).ldsm_notified_hash
      d.ldsm_notified_hash ∧
    (∀ k : String, (∃ m ∈ mounts, m.mount_path = k) →
      g_hash_table_lookup (ldsm_mounts_changed_purge mounts d).ldsm_notified_hash k =
        g_hash_table_lookup d.ldsm_notified_hash k) ∧
    (∀ k : String, (∀ m ∈ mounts, m.mount_path ≠ k) →
      g_hash_table_lookup (ldsm_mounts_changed_purge mounts d).ldsm_notified_hash k = none) ∧
    same_config d (ldsm_mounts_changed_purge mounts d) ∧
    (ldsm_mounts_changed_purge mounts d).dialog = d.dialog ∧
    (ldsm_mounts_changed_purge mounts d).attempts = d.attempts ∧
    (ldsm_mounts_changed_purge mounts d).shown = d.shown ∧
    (∀ (o : Oracle) (src : MountSource),
      ldsm_mounts_changed o src mounts d =
        ldsm_check_all_mounts o src (ldsm_mounts_changed_purge mounts d)) := by
  refine ⟨fun e => ?_, ?_, fun k hk => ?_, fun k hk => ?_, ⟨rfl, rfl, rfl, rfl, rfl⟩,
    rfl, rfl, rfl, fun _ _ => rfl⟩
  · simp only [ldsm_mounts_changed_purge, foreach_remove_mem]
    constructor
    · rintro ⟨hmem, hf⟩
      refine ⟨hmem, ?_⟩
      by_contra hno
      have : ldsm_is_hash_item_not_in_mounts e.1 e.2 mounts = true :=
        (not_in_mounts_iff e.1 e.2 mounts).mpr
          (fun m hm hp => hno ⟨m, hm, hp⟩)
      rw [hf] at this
      exact Bool.noConfusion this
    · rintro ⟨hmem, m, hm, hp⟩
      refine ⟨hmem, ?_⟩
      cases hf : ldsm_is_hash_item_not_in_mounts e.1 e.2 mounts
      · rfl
      · exact absurd hp ((not_in_mounts_iff e.1 e.2 mounts).mp hf m hm)
  · exact List.filter_sublist _
  · obtain ⟨m, hm, hp⟩ := hk
    refine foreach_remove_lookup_kept d.ldsm_notified_hash
      (fun key value => ldsm_is_hash_item_not_in_mounts key value mounts) k (fun v => ?_)
    show ldsm_is_hash_item_not_in_mounts k v mounts = false
    cases hf : ldsm_is_hash_item_not_in_mounts k v mounts
    · rfl
    · exact absurd hp ((not_in_mounts_iff k v mounts).mp hf m hm)
  · exact foreach_remove_lookup_removed d.ldsm_notified_hash
      (fun key value => ldsm_is_hash_item_not_in_mounts key value mounts) k
      (fun v => (not_in_mounts_iff k v mounts).mpr hk)

/-! ## Order of the low mounts (C17) -/

/-- C17: in `ldsm_check_all_mounts` the list `check_mounts` is the list of eligible mounts of
the static mount points in reverse order, and the list `full_mounts` handed to
`ldsm_maybe_warn_mounts` is the list of low eligible mounts in the order of the static mount
points; so the first low mount considered for notification is the one of the earliest
static mount point that yields a low mount. -/
theorem C17_low_mounts_in_mount_point_order (o : Oracle) (src : MountSource)
    (d : DIskSpace) :
    check_mounts src d =
      (src.g_unix_mount_points_get.filterMap (check_mounts_candidate src d)).reverse ∧
    full_mounts src d =
      (src.g_unix_mount_points_get.filterMap (check_mounts_candidate src d)).filter
        (fun m => !ldsm_mount_has_space d m) ∧
    full_mounts src d =
      src.g_unix_mount_points_get.filterMap
        (fun mp => (check_mounts_candidate src d mp).filter
          (fun m => !ldsm_mount_has_space d m)) ∧
    (full_mounts src d).head? =
      src.g_unix_mount_points_get.findSome?
        (fun mp => (check_mounts_candidate src d mp).filter
          (fun m => !ldsm_mount_has_space d m)) ∧
    ldsm_check_all_mounts o src d =
      ldsm_maybe_warn_mounts o (ldsm_check_all_mounts_classify (check_mounts src d) [] d).2
        (full_mounts src d) (decide ((check_mounts src d).length > 1))
        (decide ((check_mounts src d).length > (full_mounts src d).length)) := by
  have h1 : check_mounts src d =
      (src.g_unix_mount_points_get.filterMap (check_mounts_candidate src d)).reverse := by
    unfold check_mounts
    rw [collect_eq]
    simp
  have h2 : full_mounts src d =
      (src.g_unix_mount_points_get.filterMap (check_mounts_candidate src d)).filter
        (fun m => !ldsm_mount_has_space d m) := by
    unfold full_mounts
    rw [classify_fst_eq d _ [] d (same_config_refl d), h1]
    simp [List.filter_reverse]
  have h3 : full_mounts src d =
      src.g_unix_mount_points_get.filterMap
        (fun mp => (check_mounts_candidate src d mp).filter
          (fun m => !ldsm_mount_has_space d m)) := by
    rw [h2, List.filter_filterMap]
  refine ⟨h1, h2, h3, ?_, rfl⟩
  rw [h3, head_filterMap_eq_findSome]

end UsdDiskSpace
